import Mathlib

set_option maxHeartbeats 1000000

namespace Deserethon

/-- Raw relationship identifiers captured verbatim at construction
(`relationships_data` in `character.py`): an optional spouse id and
ordered id lists for parents, children and siblings.  The Python code
stores these in a dict and reads them with `.get` and defaults; the
structure fields model exactly those keyed slots. -/
structure RelationshipsData where
  spouse_id : Option String
  parent_ids : List String
  children_ids : List String
  sibling_ids : List String
deriving DecidableEq

/-- The empty relationships dict (`{}` default in `Character.__init__`). -/
def RelationshipsData.empty : RelationshipsData := ⟨none, [], [], []⟩

/-- A raw parsed record, as delivered by the YAML layer: each field is
present (`some`) or absent (`none`), mirroring key presence in the
parsed dict of `Character.load_from_yaml_file`. -/
structure RawData where
  id : Option String
  name : Option String
  age : Option Int
  gender : Option String
  bio : Option String
  is_player : Option Bool
  relationships : Option RelationshipsData
  assets : Option (List String)
  skills : Option (List String)
  traits : Option (List String)
deriving DecidableEq

/-- In-memory character (`Character.__init__` in `character.py`).
Resolved relationship links (`spouse_obj`, `parent_objs`,
`children_objs`, `sibling_objs`) are weak references into the registry;
they are modelled by the id of the referenced character, which is how the
registry addresses the object (`§9` of the design: relation + lookup key,
never ownership). -/
structure Character where
  id : String
  name : String
  age : Int
  gender : String
  bio : String
  is_player : Bool
  relationships_data : RelationshipsData
  assets : List String
  skills : List String
  traits : List String
  spouse_obj : Option String
  parent_objs : List String
  children_objs : List String
  sibling_objs : List String
deriving DecidableEq

/-- `Character.get_spouse_id`. -/
def Character.get_spouse_id (c : Character) : Option String :=
  c.relationships_data.spouse_id

/-- `Character.get_parent_ids`. -/
def Character.get_parent_ids (c : Character) : List String :=
  c.relationships_data.parent_ids

/-- `Character.get_children_ids`. -/
def Character.get_children_ids (c : Character) : List String :=
  c.relationships_data.children_ids

/-- `Character.get_sibling_ids`. -/
def Character.get_sibling_ids (c : Character) : List String :=
  c.relationships_data.sibling_ids

/-- The construction-time part of a character: the resolved-link slots
reset to their construction defaults.  Two characters with the same
`unlinked` projection hold the same record data. -/
def Character.unlinked (c : Character) : Character :=
  { c with spouse_obj := none, parent_objs := [], children_objs := [], sibling_objs := [] }

/-- Message of the `ValueError` raised for a missing required field in
`Character.load_from_yaml_file`. -/
def missingFieldMsg (fieldName path : String) : String :=
  "Missing required field \x27" ++ fieldName ++ "\x27 in character data from " ++ path

/-- `Character.load_from_yaml_file` (post-parse part): checks the
required fields `id, name, age, gender, bio` in that order, raising on
the first missing one, then builds the character with documented
defaults for the optional fields. -/
def Character.load_from_yaml_file (path : String) (d : RawData) : Except String Character :=
  match d.id with
  | none => Except.error (missingFieldMsg "id" path)
  | some i =>
  match d.name with
  | none => Except.error (missingFieldMsg "name" path)
  | some nm =>
  match d.age with
  | none => Except.error (missingFieldMsg "age" path)
  | some a =>
  match d.gender with
  | none => Except.error (missingFieldMsg "gender" path)
  | some g =>
  match d.bio with
  | none => Except.error (missingFieldMsg "bio" path)
  | some b =>
    Except.ok
      { id := i
        name := nm
        age := a
        gender := g
        bio := b
        is_player := d.is_player.getD false
        relationships_data := d.relationships.getD RelationshipsData.empty
        assets := d.assets.getD []
        skills := d.skills.getD []
        traits := d.traits.getD []
        spouse_obj := none
        parent_objs := []
        children_objs := []
        sibling_objs := [] }

/-- One input file: its (base)name — the source identifier used in error
messages — and its parsed record.  File names are modelled by their
basenames; the directory scan itself is the external collaborator. -/
structure RawFile where
  path : String
  data : RawData
deriving DecidableEq

/-- Python truthiness of an optional string (`if spouse_id:`):
false for `None` and for the empty string. -/
def optStrTruthy : Option String → Bool
  | none => false
  | some s => !s.isEmpty

/-- Registry lookup, `self.characters.get(k)` on the insertion-ordered
dict modelled as an association list. -/
def regGet (reg : List (String × Character)) (k : String) : Option Character :=
  match reg with
  | [] => none
  | (k', c) :: rest => if k' = k then some c else regGet rest k

/-- Replace the value stored at key `k` (in-place mutation of the object
referenced by the dict slot). -/
def regSet (reg : List (String × Character)) (k : String) (c : Character) :
    List (String × Character) :=
  match reg with
  | [] => []
  | (k', c') :: rest => if k' = k then (k', c) :: rest else (k', c') :: regSet rest k c

/-! ### CharacterManager messages (`character_manager.py`) -/

def cmStartMsg (p : String) : String :=
  "CharacterManager: Starting character load from directory: \x27" ++ p ++ "\x27"

def cmDirErrMsg (p : String) : String :=
  "Characters directory not found: " ++ p

def cmNoFilesMsg (p : String) : String :=
  "WARN: No character YAML files found in " ++ p ++ "."

def cmFoundMsg (n : Nat) : String :=
  "CharacterManager: Found " ++ toString n ++ " potential character files."

def cmLoadFailMsg (base e : String) : String :=
  "Failed to load or parse character file \x27" ++ base ++ "\x27: " ++ e

def cmDupMsg (i : String) : String :=
  "Duplicate character ID \x27" ++ i ++ "\x27. Original kept, duplicate ignored."

def cmMultiMsg (old neu : String) : String :=
  "Multiple player characters defined! Old: " ++ old ++ ", New: " ++ neu ++
    ". Using the latter: " ++ neu ++ "."

def cmProcessedMsg (n : Nat) : String :=
  "CharacterManager: Successfully parsed and preliminarily processed " ++ toString n ++
    " unique characters."

def cmNoPlayerMsg : String :=
  "No player character (is_player: true) was designated among the loaded characters."

def cmLinkStartMsg : String :=
  "CharacterManager: Linking character relationships..."

def cmNoCharsMsg : String :=
  "  No characters to link (character dictionary is empty)."

def cmSpouseWarnMsg (cid sid : String) : String :=
  "  WARN: For character \x27" ++ cid ++ "\x27, spouse ID \x27" ++ sid ++
    "\x27 not found in loaded characters."

def cmParentWarnMsg (cid pid : String) : String :=
  "  WARN: For character \x27" ++ cid ++ "\x27, parent ID \x27" ++ pid ++ "\x27 not found."

def cmChildWarnMsg (cid kid : String) : String :=
  "  WARN: For character \x27" ++ cid ++ "\x27, child ID \x27" ++ kid ++ "\x27 not found."

def cmSiblingWarnMsg (cid sid : String) : String :=
  "  WARN: For character \x27" ++ cid ++ "\x27, sibling ID \x27" ++ sid ++ "\x27 not found."

def cmLinkDoneMsg : String :=
  "CharacterManager: Character relationship linking attempt complete."

def cmIssuesMsg (n : Nat) : String :=
  "CharacterManager: Character loading and linking completed with " ++ toString n ++ " issues."

def cmAllOkMsg : String :=
  "CharacterManager: All characters loaded and linked successfully."

/-! ### CharacterManager state and pipeline -/

/-- The mutable fields of `CharacterManager`: the registry dict (keyed,
insertion-ordered), the designated player id, and the two message lists. -/
structure CMState where
  characters : List (String × Character)
  player_character_id : Option String
  loading_log : List String
  loading_errors : List String
deriving DecidableEq

/-- `CharacterManager._add_log_message`. -/
def CMState.add_log (s : CMState) (m : String) : CMState :=
  { s with loading_log := s.loading_log ++ [m] }

/-- `CharacterManager._add_error_message`: appends to the error list and
records the message in the log prefixed with `ERROR: `. -/
def CMState.add_error (s : CMState) (m : String) : CMState :=
  let s' := { s with loading_errors := s.loading_errors ++ [m] }
  s'.add_log ("ERROR: " ++ m)

/-- First loop of `load_and_link_characters` (lines 63–70): try to
construct a character from each file, collecting successes in order and
recording a classified error for each failure. -/
def cmParseLoop (s : CMState) (objs : List Character) :
    List RawFile → CMState × List Character
  | [] => (s, objs)
  | f :: rest =>
    match Character.load_from_yaml_file f.path f.data with
    | Except.ok c => cmParseLoop s (objs ++ [c]) rest
    | Except.error e => cmParseLoop (s.add_error (cmLoadFailMsg f.path e)) objs rest

/-- Second loop of `load_and_link_characters` (lines 73–88): walk the
constructed characters in order, reject duplicates (first occurrence
wins), insert the rest, and maintain the last-player-wins player id with
a multiple-players error on each overwrite. -/
def cmRegisterLoop (s : CMState) (pids : List String) : List Character → CMState
  | [] => s
  | c :: rest =>
    if c.id ∈ pids then
      cmRegisterLoop (s.add_error (cmDupMsg c.id)) pids rest
    else
      let s1 := { s with characters := s.characters ++ [(c.id, c)] }
      let s2 :=
        if c.is_player then
          let s' :=
            match s1.player_character_id with
            | some old => s1.add_error (cmMultiMsg old c.id)
            | none => s1
          { s' with player_character_id := some c.id }
        else s1
      cmRegisterLoop s2 (pids ++ [c.id]) rest

/-- Resolve one ordered id list against the registry
(the parents / children / siblings loops of
`_link_relationships_internal`): found objects are appended in source
order (recorded by their registry id), missing ids are skipped with a
warning message built by `mkWarn`. -/
def cmResolveList (reg : List (String × Character)) (mkWarn : String → String) :
    List String → List String × List String
  | [] => ([], [])
  | i :: rest =>
    let (os, ws) := cmResolveList reg mkWarn rest
    match regGet reg i with
    | some ch => (ch.id :: os, ws)
    | none => (os, mkWarn i :: ws)

/-- The spouse block of the per-character loop of
`_link_relationships_internal`: if the spouse id is truthy, store the
lookup result (the found character, recorded by its registry id, or
`None`) and warn when the lookup failed. -/
def cmLinkSpouse (reg : List (String × Character)) (cid : String) (c : Character) :
    Character × List String :=
  match c.get_spouse_id with
  | some sid =>
    if sid.isEmpty then (c, [])
    else
      let so := (regGet reg sid).map Character.id
      if so.isNone then ({ c with spouse_obj := so }, [cmSpouseWarnMsg cid sid])
      else ({ c with spouse_obj := so }, [])
  | none => (c, [])

/-- The parents block: when the raw list is truthy, reinitialize the
resolved list and append each found parent in source order. -/
def cmLinkParents (reg : List (String × Character)) (cid : String) (c : Character) :
    Character × List String :=
  if c.get_parent_ids.isEmpty then (c, [])
  else
    let r := cmResolveList reg (cmParentWarnMsg cid) c.get_parent_ids
    ({ c with parent_objs := r.1 }, r.2)

/-- The children block of the same loop. -/
def cmLinkChildren (reg : List (String × Character)) (cid : String) (c : Character) :
    Character × List String :=
  if c.get_children_ids.isEmpty then (c, [])
  else
    let r := cmResolveList reg (cmChildWarnMsg cid) c.get_children_ids
    ({ c with children_objs := r.1 }, r.2)

/-- The siblings block of the same loop. -/
def cmLinkSiblings (reg : List (String × Character)) (cid : String) (c : Character) :
    Character × List String :=
  if c.get_sibling_ids.isEmpty then (c, [])
  else
    let r := cmResolveList reg (cmSiblingWarnMsg cid) c.get_sibling_ids
    ({ c with sibling_objs := r.1 }, r.2)

/-- Link one character against the registry: the body of the
`for char_id, character in self.characters.items()` loop of
`_link_relationships_internal`.  Returns the character with its resolved
link slots populated together with the warning messages logged, in
emission order (spouse, then parents, children, siblings). -/
def cmLinkChar (reg : List (String × Character)) (cid : String) (c : Character) :
    Character × List String :=
  let r1 := cmLinkSpouse reg cid c
  let r2 := cmLinkParents reg cid r1.1
  let r3 := cmLinkChildren reg cid r2.1
  let r4 := cmLinkSiblings reg cid r3.1
  (r4.1, r1.2 ++ r2.2 ++ r3.2 ++ r4.2)

/-- The linking loop over the registry's (snapshot of) keys; each step
rewrites the entry at the current key in place, so later characters are
linked against the partially updated registry — exactly the in-place
mutation of the Python loop. -/
def cmLinkLoop (s : CMState) : List String → CMState
  | [] => s
  | k :: rest =>
    match regGet s.characters k with
    | none => cmLinkLoop s rest
    | some c =>
      let r := cmLinkChar s.characters k c
      cmLinkLoop
        { s with characters := regSet s.characters k r.1,
                 loading_log := s.loading_log ++ r.2 }
        rest

/-- `CharacterManager._link_relationships_internal`. -/
def cmLinkPhase (s : CMState) : CMState :=
  let s1 := s.add_log cmLinkStartMsg
  if s1.characters.isEmpty then s1.add_log cmNoCharsMsg
  else
    let s2 := cmLinkLoop s1 (s1.characters.map Prod.fst)
    s2.add_log cmLinkDoneMsg

/-- `CharacterManager.load_and_link_characters`.  `dirOk` is the
external collaborator's report that the directory exists; `files` are
the records it delivers (the YAML glob).  Returns the final manager
state and the boolean result. -/
def cmLoad (s0 : CMState) (dirPath : String) (dirOk : Bool) (files : List RawFile) :
    CMState × Bool :=
  let s : CMState :=
    { s0 with characters := [], player_character_id := none,
              loading_log := [], loading_errors := [] }
  let s := s.add_log (cmStartMsg dirPath)
  if !dirOk then (s.add_error (cmDirErrMsg dirPath), false)
  else if files.isEmpty then (s.add_log (cmNoFilesMsg dirPath), true)
  else
    let s := s.add_log (cmFoundMsg files.length)
    let r := cmParseLoop s [] files
    let s := cmRegisterLoop r.1 [] r.2
    let s := s.add_log (cmProcessedMsg s.characters.length)
    let s :=
      if !s.characters.isEmpty && s.player_character_id.isNone then
        s.add_error cmNoPlayerMsg
      else s
    let s := cmLinkPhase s
    if !s.loading_errors.isEmpty then
      (s.add_log (cmIssuesMsg s.loading_errors.length), true)
    else
      (s.add_log cmAllOkMsg, true)

/-! ### GameState messages (`game_state.py`) -/

def gsStartMsg (p : String) : String :=
  "Starting character load from: " ++ p

def gsDirErrMsg (p : String) : String :=
  "ERROR: Characters directory not found: " ++ p

def gsNoFilesMsg (p : String) : String :=
  "WARN: No character YAML files found in " ++ p ++ "."

def gsLoadingMsg (base : String) : String :=
  "  Loading character from: " ++ base

def gsLoadFailMsg (base e : String) : String :=
  "ERROR: Failed to load character from " ++ base ++ ": " ++ e

def gsDupMsg (i base : String) : String :=
  "ERROR: Duplicate character ID \x27" ++ i ++ "\x27 found in " ++ base ++ ". Skipping."

def gsMultiMsg (old neu : String) : String :=
  "ERROR: Multiple player characters defined! Old: " ++ old ++ ", New: " ++ neu ++
    ". Using last one."

def gsNoPlayerMsg : String :=
  "ERROR: No player character (is_player: true) defined among loaded characters."

def gsSuccessMsg (n : Nat) : String :=
  "Successfully loaded " ++ toString n ++ " characters."

def gsFinishedErrsMsg (n : Nat) : String :=
  "Character loading finished with " ++ toString n ++ " errors/warnings."

def gsLinkStartMsg : String :=
  "Linking character relationships..."

def gsNoCharsMsg : String :=
  "  No characters to link."

def gsSpouseWarnLog (sid cid : String) : String :=
  "  WARN: Spouse ID \x27" ++ sid ++ "\x27 for character \x27" ++ cid ++ "\x27 not found."

def gsSpouseWarnErr (sid cid : String) : String :=
  "Linking Warn: Spouse ID \x27" ++ sid ++ "\x27 for \x27" ++ cid ++ "\x27 not found."

def gsParentWarnLog (pid cid : String) : String :=
  "  WARN: Parent ID \x27" ++ pid ++ "\x27 for character \x27" ++ cid ++ "\x27 not found."

def gsParentWarnErr (pid cid : String) : String :=
  "Linking Warn: Parent ID \x27" ++ pid ++ "\x27 for \x27" ++ cid ++ "\x27 not found."

def gsChildWarnLog (kid cid : String) : String :=
  "  WARN: Child ID \x27" ++ kid ++ "\x27 for character \x27" ++ cid ++ "\x27 not found."

def gsChildWarnErr (kid cid : String) : String :=
  "Linking Warn: Child ID \x27" ++ kid ++ "\x27 for \x27" ++ cid ++ "\x27 not found."

def gsSiblingWarnLog (sid cid : String) : String :=
  "  WARN: Sibling ID \x27" ++ sid ++ "\x27 for character \x27" ++ cid ++ "\x27 not found."

def gsSiblingWarnErr (sid cid : String) : String :=
  "Linking Warn: Sibling ID \x27" ++ sid ++ "\x27 for \x27" ++ cid ++ "\x27 not found."

def gsLinkDoneMsg : String :=
  "Character relationship linking complete."

/-! ### GameState state and pipeline -/

/-- The fields of `GameState` touched by the loading pipeline.  The
UI-interaction fields (`current_prompt`, `is_game_over`,
`game_over_message`) are never read or written by
`load_all_characters_from_files` or `_link_character_relationships` and
are omitted. -/
structure GSState where
  characters : List (String × Character)
  player_character_id : Option String
  log_messages : List String
  loading_errors : List String
  initial_load_complete : Bool
deriving DecidableEq

/-- `GameState.add_log`. -/
def GSState.add_log (s : GSState) (m : String) : GSState :=
  { s with log_messages := s.log_messages ++ [m] }

/-- Append an already-formatted error message to both the log and the
error list, in that order — the `add_log` / `loading_errors.append`
pairs used throughout `load_all_characters_from_files`. -/
def GSState.add_both (s : GSState) (m : String) : GSState :=
  let s' := s.add_log m
  { s' with loading_errors := s'.loading_errors ++ [m] }

/-- The per-file loop of `load_all_characters_from_files`
(lines 72–96): log, construct, reject duplicates against the live
registry, insert, maintain last-player-wins, and count insertions. -/
def gsFileLoop (s : GSState) (count : Nat) : List RawFile → GSState × Nat
  | [] => (s, count)
  | f :: rest =>
    let s := s.add_log (gsLoadingMsg f.path)
    match Character.load_from_yaml_file f.path f.data with
    | Except.error e => gsFileLoop (s.add_both (gsLoadFailMsg f.path e)) count rest
    | Except.ok c =>
      if (regGet s.characters c.id).isSome then
        gsFileLoop (s.add_both (gsDupMsg c.id f.path)) count rest
      else
        let s1 := { s with characters := s.characters ++ [(c.id, c)] }
        let s2 :=
          if c.is_player then
            let s' :=
              match s1.player_character_id with
              | some old => s1.add_both (gsMultiMsg old c.id)
              | none => s1
            { s' with player_character_id := some c.id }
          else s1
        gsFileLoop s2 (count + 1) rest

/-- Resolve one ordered id list against the registry, the
parents / children / siblings loops of `_link_character_relationships`:
found objects are appended in source order (by registry id); each
missing id yields a log warning and an error-list warning. -/
def gsResolveList (reg : List (String × Character)) (mkLog mkErr : String → String) :
    List String → List String × List String × List String
  | [] => ([], [], [])
  | i :: rest =>
    let r := gsResolveList reg mkLog mkErr rest
    match regGet reg i with
    | some ch => (ch.id :: r.1, r.2.1, r.2.2)
    | none => (r.1, mkLog i :: r.2.1, mkErr i :: r.2.2)

/-- The spouse block of the per-character loop of
`_link_character_relationships`: store the lookup result and, on a
failed lookup, warn in the log and in the error list. -/
def gsLinkSpouse (reg : List (String × Character)) (cid : String) (c : Character) :
    Character × List String × List String :=
  match c.get_spouse_id with
  | some sid =>
    if sid.isEmpty then (c, [], [])
    else
      let so := (regGet reg sid).map Character.id
      if so.isNone then
        ({ c with spouse_obj := so }, [gsSpouseWarnLog sid cid], [gsSpouseWarnErr sid cid])
      else ({ c with spouse_obj := so }, [], [])
  | none => (c, [], [])

/-- The parents block of the same loop. -/
def gsLinkParents (reg : List (String × Character)) (cid : String) (c : Character) :
    Character × List String × List String :=
  if c.get_parent_ids.isEmpty then (c, [], [])
  else
    let r := gsResolveList reg (fun i => gsParentWarnLog i cid)
      (fun i => gsParentWarnErr i cid) c.get_parent_ids
    ({ c with parent_objs := r.1 }, r.2.1, r.2.2)

/-- The children block of the same loop. -/
def gsLinkChildren (reg : List (String × Character)) (cid : String) (c : Character) :
    Character × List String × List String :=
  if c.get_children_ids.isEmpty then (c, [], [])
  else
    let r := gsResolveList reg (fun i => gsChildWarnLog i cid)
      (fun i => gsChildWarnErr i cid) c.get_children_ids
    ({ c with children_objs := r.1 }, r.2.1, r.2.2)

/-- The siblings block of the same loop. -/
def gsLinkSiblings (reg : List (String × Character)) (cid : String) (c : Character) :
    Character × List String × List String :=
  if c.get_sibling_ids.isEmpty then (c, [], [])
  else
    let r := gsResolveList reg (fun i => gsSiblingWarnLog i cid)
      (fun i => gsSiblingWarnErr i cid) c.get_sibling_ids
    ({ c with sibling_objs := r.1 }, r.2.1, r.2.2)

/-- Link one character: the body of the per-character loop of
`_link_character_relationships`.  Returns the linked character, the log
warnings and the error-list warnings, each in emission order. -/
def gsLinkChar (reg : List (String × Character)) (cid : String) (c : Character) :
    Character × List String × List String :=
  let r1 := gsLinkSpouse reg cid c
  let r2 := gsLinkParents reg cid r1.1
  let r3 := gsLinkChildren reg cid r2.1
  let r4 := gsLinkSiblings reg cid r3.1
  (r4.1, r1.2.1 ++ r2.2.1 ++ r3.2.1 ++ r4.2.1,
    r1.2.2 ++ r2.2.2 ++ r3.2.2 ++ r4.2.2)

/-- The linking loop over the registry's keys, rewriting entries in
place as the Python loop mutates the shared objects; warnings go to the
log and to the error list. -/
def gsLinkLoop (s : GSState) : List String → GSState
  | [] => s
  | k :: rest =>
    match regGet s.characters k with
    | none => gsLinkLoop s rest
    | some c =>
      let r := gsLinkChar s.characters k c
      gsLinkLoop
        { s with characters := regSet s.characters k r.1,
                 log_messages := s.log_messages ++ r.2.1,
                 loading_errors := s.loading_errors ++ r.2.2 }
        rest

/-- `GameState._link_character_relationships`. -/
def gsLinkPhase (s : GSState) : GSState :=
  let s1 := s.add_log gsLinkStartMsg
  if s1.characters.isEmpty then s1.add_log gsNoCharsMsg
  else
    let s2 := gsLinkLoop s1 (s1.characters.map Prod.fst)
    s2.add_log gsLinkDoneMsg

/-- Tail of `load_all_characters_from_files` (lines 98–114): the
no-player check, then either the success path (count log line, linking,
completion flag, `True`) or the failure path (summary log line,
`False`), decided by whether any error accumulated so far. -/
def gsFinish (r : GSState × Nat) : GSState × Bool :=
  let s := r.1
  let s :=
    if s.player_character_id.isNone && !s.characters.isEmpty then
      s.add_both gsNoPlayerMsg
    else s
  if s.loading_errors.isEmpty then
    let s' := s.add_log (gsSuccessMsg r.2)
    let s' := gsLinkPhase s'
    ({ s' with initial_load_complete := true }, true)
  else
    (s.add_log (gsFinishedErrsMsg s.loading_errors.length), false)

/-- `GameState.load_all_characters_from_files`.  `dirOk` is the external
collaborator's report that the directory exists; `files` are the
records it delivers.  Returns the final state and the boolean result:
relationship linking runs (and `initial_load_complete` is set) only when
no error accumulated during loading, otherwise the run returns `false`. -/
def gsLoad (s0 : GSState) (dirPath : String) (dirOk : Bool) (files : List RawFile) :
    GSState × Bool :=
  let s : GSState :=
    { s0 with log_messages := [], characters := [], loading_errors := [],
              player_character_id := none, initial_load_complete := false }
  let s := s.add_log (gsStartMsg dirPath)
  if !dirOk then (s.add_both (gsDirErrMsg dirPath), false)
  else
    let s := if files.isEmpty then s.add_log (gsNoFilesMsg dirPath) else s
    gsFinish (gsFileLoop s 0 files)

/-! ### Pure descriptions of the pipeline phases

The loops above thread mutable state; the functions below compute the
same data purely, and characterization lemmas connect the two.  They
are the vocabulary of the claim statements. -/

/-- The characters successfully constructed from a batch, in order. -/
def okChars (files : List RawFile) : List Character :=
  files.filterMap fun f => (Character.load_from_yaml_file f.path f.data).toOption

/-- The characters that make it into the registry: first occurrence of
each id wins, later records with an already-seen id are dropped.
`pids` are the ids already registered. -/
def newEntries (pids : List String) : List Character → List Character
  | [] => []
  | c :: rest =>
    if c.id ∈ pids then newEntries pids rest
    else c :: newEntries (pids ++ [c.id]) rest

/-- The player id after processing: the last non-duplicate record with
the player flag wins; `p` is the previously designated player. -/
def playerAfter (p : Option String) (pids : List String) : List Character → Option String
  | [] => p
  | c :: rest =>
    if c.id ∈ pids then playerAfter p pids rest
    else playerAfter (if c.is_player then some c.id else p) (pids ++ [c.id]) rest

/-- Error messages emitted by the construction loop of
`CharacterManager.load_and_link_characters`. -/
def cmParseMsgs : List RawFile → List String
  | [] => []
  | f :: rest =>
    match Character.load_from_yaml_file f.path f.data with
    | Except.ok _ => cmParseMsgs rest
    | Except.error e => cmLoadFailMsg f.path e :: cmParseMsgs rest

/-- The multiple-players note emitted when a player record overwrites a
previously designated player id. -/
def cmMultiNote : Option String → String → List String
  | some old, nid => [cmMultiMsg old nid]
  | none, _ => []

/-- `GameState` variant of the multiple-players note. -/
def gsMultiNote : Option String → String → List String
  | some old, nid => [gsMultiMsg old nid]
  | none, _ => []

/-- Error messages emitted by the registration loop of
`CharacterManager.load_and_link_characters`. -/
def cmRegMsgs (p : Option String) (pids : List String) : List Character → List String
  | [] => []
  | c :: rest =>
    if c.id ∈ pids then cmDupMsg c.id :: cmRegMsgs p pids rest
    else if c.is_player then
      cmMultiNote p c.id ++ cmRegMsgs (some c.id) (pids ++ [c.id]) rest
    else cmRegMsgs p (pids ++ [c.id]) rest

/-- Error messages emitted by the per-file loop of
`GameState.load_all_characters_from_files`. -/
def gsLoopMsgs (p : Option String) (pids : List String) : List RawFile → List String
  | [] => []
  | f :: rest =>
    match Character.load_from_yaml_file f.path f.data with
    | Except.error e => gsLoadFailMsg f.path e :: gsLoopMsgs p pids rest
    | Except.ok c =>
      if c.id ∈ pids then gsDupMsg c.id f.path :: gsLoopMsgs p pids rest
      else if c.is_player then
        gsMultiNote p c.id ++ gsLoopMsgs (some c.id) (pids ++ [c.id]) rest
      else gsLoopMsgs p (pids ++ [c.id]) rest

/-- Log messages emitted by the per-file loop of
`GameState.load_all_characters_from_files`. -/
def gsLoopLogs (p : Option String) (pids : List String) : List RawFile → List String
  | [] => []
  | f :: rest =>
    gsLoadingMsg f.path ::
      (match Character.load_from_yaml_file f.path f.data with
       | Except.error e => gsLoadFailMsg f.path e :: gsLoopLogs p pids rest
       | Except.ok c =>
         if c.id ∈ pids then gsDupMsg c.id f.path :: gsLoopLogs p pids rest
         else if c.is_player then
           gsMultiNote p c.id ++ gsLoopLogs (some c.id) (pids ++ [c.id]) rest
         else gsLoopLogs p (pids ++ [c.id]) rest)

/-- The first field of `id, name, age, gender, bio` missing from a raw
record — the order of the `required_fields` loop in
`Character.load_from_yaml_file`. -/
def firstMissing (d : RawData) : Option String :=
  if d.id.isNone then some "id"
  else if d.name.isNone then some "name"
  else if d.age.isNone then some "age"
  else if d.gender.isNone then some "gender"
  else if d.bio.isNone then some "bio"
  else none

/-- The ids of a raw relationship list that resolve against the
registry, in source order, duplicates retained. -/
def foundFilter (reg : List (String × Character)) (l : List String) : List String :=
  l.filter fun i => (regGet reg i).isSome

/-- A registry is well keyed when every entry is stored under its
character's id — true of every registry the pipelines build. -/
def WellKeyed (reg : List (String × Character)) : Prop :=
  ∀ p ∈ reg, (Prod.snd p).id = Prod.fst p

instance : DecidablePred WellKeyed := fun reg =>
  inferInstanceAs (Decidable (∀ p ∈ reg, (Prod.snd p).id = Prod.fst p))

/-- Whether `p` is a leading segment of `l`. -/
def leadsWith : List Char → List Char → Bool
  | [], _ => true
  | _ :: _, [] => false
  | a :: as, b :: bs => a == b && leadsWith as bs

/-- Whether the character sequence `pat` occurs inside `l`. -/
def textHas (pat : List Char) : List Char → Bool
  | [] => leadsWith pat []
  | c :: rest => leadsWith pat (c :: rest) || textHas pat rest

/-- Whether a string occurs inside another (used to say that an error
message names a source identifier). -/
def containsSub (s pat : String) : Bool :=
  textHas pat.data s.data

/-- The first eight characters of a message: every message family the
pipelines emit has a fixed eight-character lead, so this tag
discriminates the families no matter what data is interpolated. -/
def msgTag (m : String) : List Char :=
  m.data.take 8

/-! ### Registry and tag helper lemmas -/

theorem regGet_isSome_iff (reg : List (String × Character)) (k : String) :
    (regGet reg k).isSome = true ↔ k ∈ reg.map Prod.fst := by
  induction reg with
  | nil => simp [regGet]
  | cons p rest ih =>
    obtain ⟨k', c⟩ := p
    by_cases h : k' = k
    · subst h; simp [regGet]
    · simp [regGet, h, ih, Ne.symm h]

theorem regGet_eq_some_id (reg : List (String × Character)) (k : String) (c : Character)
    (wk : WellKeyed reg) (h : regGet reg k = some c) : c.id = k := by
  induction reg with
  | nil => simp [regGet] at h
  | cons p rest ih =>
    obtain ⟨k', c'⟩ := p
    by_cases hk : k' = k
    · subst hk
      simp [regGet] at h
      subst h
      exact wk (k', c') (List.mem_cons_self _ _)
    · simp [regGet, hk] at h
      exact ih (fun q hq => wk q (List.mem_cons_of_mem _ hq)) h

theorem regSet_keys (reg : List (String × Character)) (k : String) (c : Character) :
    (regSet reg k c).map Prod.fst = reg.map Prod.fst := by
  induction reg with
  | nil => simp [regSet]
  | cons p rest ih =>
    obtain ⟨k', c'⟩ := p
    by_cases h : k' = k
    · simp [regSet, h]
    · simp [regSet, h, ih]

theorem regGet_regSet (reg : List (String × Character)) (k : String) (c : Character)
    (j : String) :
    regGet (regSet reg k c) j =
      if k = j ∧ (regGet reg k).isSome then some c else regGet reg j := by
  induction reg with
  | nil => simp [regSet, regGet]
  | cons p rest ih =>
    obtain ⟨k', c'⟩ := p
    by_cases hk : k' = k
    · subst hk
      by_cases hj : k' = j
      · subst hj; simp [regSet, regGet]
      · simp [regSet, regGet, hj]
    · by_cases hj : k' = j
      · subst hj
        simp [regSet, regGet, hk, Ne.symm hk]
      · simp [regSet, regGet, hk, hj, ih]

theorem msgTag_concat (p s : String) (h : 8 ≤ p.data.length) :
    msgTag (p ++ s) = p.data.take 8 := by
  unfold msgTag
  rw [String.data_append]
  exact List.take_append_of_le_length h

/-! ### Characterization of the CharacterManager loops -/

theorem cmParseLoop_spec (files : List RawFile) (s : CMState) (objs : List Character) :
    cmParseLoop s objs files =
      ({ s with
          loading_log := s.loading_log ++ (cmParseMsgs files).map (fun m => "ERROR: " ++ m),
          loading_errors := s.loading_errors ++ cmParseMsgs files },
        objs ++ okChars files) := by
  induction files generalizing s objs with
  | nil => simp [cmParseLoop, cmParseMsgs, okChars]
  | cons f rest ih =>
    cases h : Character.load_from_yaml_file f.path f.data with
    | ok c =>
      simp [cmParseLoop, cmParseMsgs, okChars, h, ih, List.filterMap_cons, Except.toOption]
    | error e =>
      simp [cmParseLoop, cmParseMsgs, okChars, h, ih, CMState.add_error, CMState.add_log,
        List.filterMap_cons, Except.toOption]

theorem cmRegisterLoop_spec (objs : List Character) (s : CMState) (pids : List String) :
    cmRegisterLoop s pids objs =
      { characters := s.characters ++ (newEntries pids objs).map (fun c => (c.id, c)),
        player_character_id := playerAfter s.player_character_id pids objs,
        loading_log := s.loading_log ++
          (cmRegMsgs s.player_character_id pids objs).map (fun m => "ERROR: " ++ m),
        loading_errors := s.loading_errors ++ cmRegMsgs s.player_character_id pids objs } := by
  induction objs generalizing s pids with
  | nil => simp [cmRegisterLoop, newEntries, playerAfter, cmRegMsgs]
  | cons c rest ih =>
    by_cases hin : c.id ∈ pids
    · simp [cmRegisterLoop, newEntries, playerAfter, cmRegMsgs, cmMultiNote, hin, ih,
        CMState.add_error, CMState.add_log]
    · by_cases hp : c.is_player
      · cases hpl : s.player_character_id with
        | some old =>
          simp [cmRegisterLoop, newEntries, playerAfter, cmRegMsgs, cmMultiNote, hin, hp, hpl, ih,
            CMState.add_error, CMState.add_log]
        | none =>
          simp [cmRegisterLoop, newEntries, playerAfter, cmRegMsgs, cmMultiNote, hin, hp, hpl, ih,
            CMState.add_error, CMState.add_log]
      · simp [cmRegisterLoop, newEntries, playerAfter, cmRegMsgs, cmMultiNote, hin, hp, ih,
          CMState.add_error, CMState.add_log]

/-! ### Characterization of the CharacterManager linking phase -/

theorem cmResolveList_spec (reg : List (String × Character)) (mkWarn : String → String)
    (wk : WellKeyed reg) (l : List String) :
    cmResolveList reg mkWarn l =
      (foundFilter reg l, (l.filter fun i => !(regGet reg i).isSome).map mkWarn) := by
  induction l with
  | nil => simp [cmResolveList, foundFilter]
  | cons i rest ih =>
    cases h : regGet reg i with
    | some ch =>
      have hid : ch.id = i := regGet_eq_some_id reg i ch wk h
      simp [cmResolveList, foundFilter, h, ih, hid, List.filter_cons]
    | none =>
      simp [cmResolveList, foundFilter, h, ih, List.filter_cons]

theorem cmLinkSpouse_unlinked (reg : List (String × Character)) (cid : String)
    (c : Character) : (cmLinkSpouse reg cid c).1.unlinked = c.unlinked := by
  unfold cmLinkSpouse
  dsimp only
  repeat' split
  all_goals simp [Character.unlinked]

theorem cmLinkParents_unlinked (reg : List (String × Character)) (cid : String)
    (c : Character) : (cmLinkParents reg cid c).1.unlinked = c.unlinked := by
  unfold cmLinkParents
  split
  all_goals simp [Character.unlinked]

theorem cmLinkChildren_unlinked (reg : List (String × Character)) (cid : String)
    (c : Character) : (cmLinkChildren reg cid c).1.unlinked = c.unlinked := by
  unfold cmLinkChildren
  split
  all_goals simp [Character.unlinked]

theorem cmLinkSiblings_unlinked (reg : List (String × Character)) (cid : String)
    (c : Character) : (cmLinkSiblings reg cid c).1.unlinked = c.unlinked := by
  unfold cmLinkSiblings
  split
  all_goals simp [Character.unlinked]

theorem cmLinkChar_unlinked (reg : List (String × Character)) (cid : String)
    (c : Character) : (cmLinkChar reg cid c).1.unlinked = c.unlinked := by
  unfold cmLinkChar
  rw [cmLinkSiblings_unlinked, cmLinkChildren_unlinked, cmLinkParents_unlinked,
    cmLinkSpouse_unlinked]

theorem cmLinkChar_id (reg : List (String × Character)) (cid : String) (c : Character) :
    (cmLinkChar reg cid c).1.id = c.id := by
  have h := cmLinkChar_unlinked reg cid c
  have : ((cmLinkChar reg cid c).1.unlinked).id = (c.unlinked).id := by rw [h]
  simpa [Character.unlinked] using this

theorem cmLinkLoop_errors (keys : List String) (s : CMState) :
    (cmLinkLoop s keys).loading_errors = s.loading_errors := by
  induction keys generalizing s with
  | nil => rfl
  | cons k rest ih =>
    cases h : regGet s.characters k with
    | none => simp [cmLinkLoop, h, ih]
    | some c => simp [cmLinkLoop, h, ih]

theorem cmLinkLoop_player (keys : List String) (s : CMState) :
    (cmLinkLoop s keys).player_character_id = s.player_character_id := by
  induction keys generalizing s with
  | nil => rfl
  | cons k rest ih =>
    cases h : regGet s.characters k with
    | none => simp [cmLinkLoop, h, ih]
    | some c => simp [cmLinkLoop, h, ih]

theorem cmLinkLoop_keys (keys : List String) (s : CMState) :
    (cmLinkLoop s keys).characters.map Prod.fst = s.characters.map Prod.fst := by
  induction keys generalizing s with
  | nil => rfl
  | cons k rest ih =>
    cases h : regGet s.characters k with
    | none => simp [cmLinkLoop, h, ih]
    | some c => simp [cmLinkLoop, h, ih, regSet_keys]

theorem cmLinkLoop_log_ext (keys : List String) (s : CMState) :
    ∃ t, (cmLinkLoop s keys).loading_log = s.loading_log ++ t := by
  induction keys generalizing s with
  | nil => exact ⟨[], by simp [cmLinkLoop]⟩
  | cons k rest ih =>
    cases h : regGet s.characters k with
    | none => simpa [cmLinkLoop, h] using ih s
    | some c =>
      obtain ⟨t, ht⟩ := ih
        { s with characters := regSet s.characters k (cmLinkChar s.characters k c).1,
                 loading_log := s.loading_log ++ (cmLinkChar s.characters k c).2 }
      exact ⟨(cmLinkChar s.characters k c).2 ++ t, by
        simp [cmLinkLoop, h, ht, List.append_assoc]⟩

theorem cmLinkPhase_errors (s : CMState) :
    (cmLinkPhase s).loading_errors = s.loading_errors := by
  unfold cmLinkPhase
  dsimp only
  split <;> simp [CMState.add_log, cmLinkLoop_errors]

theorem cmLinkPhase_player (s : CMState) :
    (cmLinkPhase s).player_character_id = s.player_character_id := by
  unfold cmLinkPhase
  dsimp only
  split <;> simp [CMState.add_log, cmLinkLoop_player]

theorem cmLinkPhase_keys (s : CMState) :
    (cmLinkPhase s).characters.map Prod.fst = s.characters.map Prod.fst := by
  unfold cmLinkPhase
  dsimp only
  split <;> simp [CMState.add_log, cmLinkLoop_keys]

theorem cmLinkPhase_log_ext (s : CMState) :
    ∃ t, (cmLinkPhase s).loading_log = s.loading_log ++ (cmLinkStartMsg :: t) := by
  unfold cmLinkPhase
  dsimp only
  split
  · exact ⟨[cmNoCharsMsg], by simp [CMState.add_log]⟩
  · obtain ⟨t, ht⟩ := cmLinkLoop_log_ext
      ((CMState.add_log s cmLinkStartMsg).characters.map Prod.fst)
      (CMState.add_log s cmLinkStartMsg)
    exact ⟨t ++ [cmLinkDoneMsg], by simp [CMState.add_log] at ht ⊢; simp [ht]⟩

/-! ### Field behaviour of the CharacterManager link steps -/

theorem cmLinkSpouse_rel (reg : List (String × Character)) (cid : String) (c : Character) :
    (cmLinkSpouse reg cid c).1.relationships_data = c.relationships_data := by
  unfold cmLinkSpouse; dsimp only; repeat' split
  all_goals simp

theorem cmLinkSpouse_parent_objs (reg : List (String × Character)) (cid : String)
    (c : Character) : (cmLinkSpouse reg cid c).1.parent_objs = c.parent_objs := by
  unfold cmLinkSpouse; dsimp only; repeat' split
  all_goals simp

theorem cmLinkSpouse_children_objs (reg : List (String × Character)) (cid : String)
    (c : Character) : (cmLinkSpouse reg cid c).1.children_objs = c.children_objs := by
  unfold cmLinkSpouse; dsimp only; repeat' split
  all_goals simp

theorem cmLinkSpouse_sibling_objs (reg : List (String × Character)) (cid : String)
    (c : Character) : (cmLinkSpouse reg cid c).1.sibling_objs = c.sibling_objs := by
  unfold cmLinkSpouse; dsimp only; repeat' split
  all_goals simp

theorem cmLinkParents_rel (reg : List (String × Character)) (cid : String) (c : Character) :
    (cmLinkParents reg cid c).1.relationships_data = c.relationships_data := by
  unfold cmLinkParents; dsimp only; split
  all_goals simp

theorem cmLinkParents_spouse_obj (reg : List (String × Character)) (cid : String)
    (c : Character) : (cmLinkParents reg cid c).1.spouse_obj = c.spouse_obj := by
  unfold cmLinkParents; dsimp only; split
  all_goals simp

theorem cmLinkParents_children_objs (reg : List (String × Character)) (cid : String)
    (c : Character) : (cmLinkParents reg cid c).1.children_objs = c.children_objs := by
  unfold cmLinkParents; dsimp only; split
  all_goals simp

theorem cmLinkParents_sibling_objs (reg : List (String × Character)) (cid : String)
    (c : Character) : (cmLinkParents reg cid c).1.sibling_objs = c.sibling_objs := by
  unfold cmLinkParents; dsimp only; split
  all_goals simp

theorem cmLinkParents_parent_objs (reg : List (String × Character)) (cid : String)
    (c : Character) :
    (cmLinkParents reg cid c).1.parent_objs =
      if c.get_parent_ids.isEmpty then c.parent_objs
      else (cmResolveList reg (cmParentWarnMsg cid) c.get_parent_ids).1 := by
  unfold cmLinkParents; dsimp only; split
  all_goals simp_all

theorem cmLinkChildren_rel (reg : List (String × Character)) (cid : String) (c : Character) :
    (cmLinkChildren reg cid c).1.relationships_data = c.relationships_data := by
  unfold cmLinkChildren; dsimp only; split
  all_goals simp

theorem cmLinkChildren_spouse_obj (reg : List (String × Character)) (cid : String)
    (c : Character) : (cmLinkChildren reg cid c).1.spouse_obj = c.spouse_obj := by
  unfold cmLinkChildren; dsimp only; split
  all_goals simp

theorem cmLinkChildren_parent_objs (reg : List (String × Character)) (cid : String)
    (c : Character) : (cmLinkChildren reg cid c).1.parent_objs = c.parent_objs := by
  unfold cmLinkChildren; dsimp only; split
  all_goals simp

theorem cmLinkChildren_sibling_objs (reg : List (String × Character)) (cid : String)
    (c : Character) : (cmLinkChildren reg cid c).1.sibling_objs = c.sibling_objs := by
  unfold cmLinkChildren; dsimp only; split
  all_goals simp

theorem cmLinkChildren_children_objs (reg : List (String × Character)) (cid : String)
    (c : Character) :
    (cmLinkChildren reg cid c).1.children_objs =
      if c.get_children_ids.isEmpty then c.children_objs
      else (cmResolveList reg (cmChildWarnMsg cid) c.get_children_ids).1 := by
  unfold cmLinkChildren; dsimp only; split
  all_goals simp_all

theorem cmLinkSiblings_spouse_obj (reg : List (String × Character)) (cid : String)
    (c : Character) : (cmLinkSiblings reg cid c).1.spouse_obj = c.spouse_obj := by
  unfold cmLinkSiblings; dsimp only; split
  all_goals simp

theorem cmLinkSiblings_parent_objs (reg : List (String × Character)) (cid : String)
    (c : Character) : (cmLinkSiblings reg cid c).1.parent_objs = c.parent_objs := by
  unfold cmLinkSiblings; dsimp only; split
  all_goals simp

theorem cmLinkSiblings_children_objs (reg : List (String × Character)) (cid : String)
    (c : Character) : (cmLinkSiblings reg cid c).1.children_objs = c.children_objs := by
  unfold cmLinkSiblings; dsimp only; split
  all_goals simp

theorem cmLinkSiblings_sibling_objs (reg : List (String × Character)) (cid : String)
    (c : Character) :
    (cmLinkSiblings reg cid c).1.sibling_objs =
      if c.get_sibling_ids.isEmpty then c.sibling_objs
      else (cmResolveList reg (cmSiblingWarnMsg cid) c.get_sibling_ids).1 := by
  unfold cmLinkSiblings; dsimp only; split
  all_goals simp_all

theorem cmLinkSpouse_spouse_obj (reg : List (String × Character)) (cid : String)
    (c : Character) :
    (cmLinkSpouse reg cid c).1.spouse_obj =
      match c.get_spouse_id with
      | some sid =>
        if sid.isEmpty then c.spouse_obj else (regGet reg sid).map Character.id
      | none => c.spouse_obj := by
  unfold cmLinkSpouse; dsimp only; repeat' split
  all_goals simp_all

theorem cmLinkSiblings_rel (reg : List (String × Character)) (cid : String)
    (c : Character) : (cmLinkSiblings reg cid c).1.relationships_data = c.relationships_data := by
  unfold cmLinkSiblings; dsimp only; split
  all_goals simp

theorem cmLinkSpouse_warns (reg : List (String × Character)) (cid : String)
    (c : Character) :
    (cmLinkSpouse reg cid c).2 =
      match c.get_spouse_id with
      | some sid =>
        if sid.isEmpty then []
        else if regGet reg sid = none then [cmSpouseWarnMsg cid sid] else []
      | none => [] := by
  unfold cmLinkSpouse; dsimp only; repeat' split
  all_goals simp_all [Option.isNone_iff_eq_none]

theorem cmLinkParents_warns (reg : List (String × Character)) (cid : String)
    (c : Character) :
    (cmLinkParents reg cid c).2 =
      if c.get_parent_ids.isEmpty then []
      else (cmResolveList reg (cmParentWarnMsg cid) c.get_parent_ids).2 := by
  unfold cmLinkParents; dsimp only; split
  all_goals simp_all

theorem cmLinkChildren_warns (reg : List (String × Character)) (cid : String)
    (c : Character) :
    (cmLinkChildren reg cid c).2 =
      if c.get_children_ids.isEmpty then []
      else (cmResolveList reg (cmChildWarnMsg cid) c.get_children_ids).2 := by
  unfold cmLinkChildren; dsimp only; split
  all_goals simp_all

theorem cmLinkSiblings_warns (reg : List (String × Character)) (cid : String)
    (c : Character) :
    (cmLinkSiblings reg cid c).2 =
      if c.get_sibling_ids.isEmpty then []
      else (cmResolveList reg (cmSiblingWarnMsg cid) c.get_sibling_ids).2 := by
  unfold cmLinkSiblings; dsimp only; split
  all_goals simp_all

/-- Raw relationship ids are never mutated by linking. -/
theorem cmLinkChar_rel (reg : List (String × Character)) (cid : String) (c : Character) :
    (cmLinkChar reg cid c).1.relationships_data = c.relationships_data := by
  unfold cmLinkChar; dsimp only
  rw [cmLinkSiblings_rel, cmLinkChildren_rel, cmLinkParents_rel, cmLinkSpouse_rel]

theorem cmLinkChar_spouse_obj (reg : List (String × Character)) (cid : String)
    (c : Character) :
    (cmLinkChar reg cid c).1.spouse_obj =
      match c.get_spouse_id with
      | some sid =>
        if sid.isEmpty then c.spouse_obj else (regGet reg sid).map Character.id
      | none => c.spouse_obj := by
  unfold cmLinkChar; dsimp only
  rw [cmLinkSiblings_spouse_obj, cmLinkChildren_spouse_obj, cmLinkParents_spouse_obj,
    cmLinkSpouse_spouse_obj]

theorem cmLinkChar_parent_objs (reg : List (String × Character)) (cid : String)
    (c : Character) :
    (cmLinkChar reg cid c).1.parent_objs =
      if c.get_parent_ids.isEmpty then c.parent_objs
      else (cmResolveList reg (cmParentWarnMsg cid) c.get_parent_ids).1 := by
  unfold cmLinkChar; dsimp only
  rw [cmLinkSiblings_parent_objs, cmLinkChildren_parent_objs, cmLinkParents_parent_objs,
    Character.get_parent_ids, cmLinkSpouse_rel, cmLinkSpouse_parent_objs,
    ← Character.get_parent_ids]

theorem cmLinkChar_children_objs (reg : List (String × Character)) (cid : String)
    (c : Character) :
    (cmLinkChar reg cid c).1.children_objs =
      if c.get_children_ids.isEmpty then c.children_objs
      else (cmResolveList reg (cmChildWarnMsg cid) c.get_children_ids).1 := by
  unfold cmLinkChar; dsimp only
  rw [cmLinkSiblings_children_objs, cmLinkChildren_children_objs,
    Character.get_children_ids, cmLinkParents_rel, cmLinkSpouse_rel,
    cmLinkParents_children_objs, cmLinkSpouse_children_objs, ← Character.get_children_ids]

theorem cmLinkChar_sibling_objs (reg : List (String × Character)) (cid : String)
    (c : Character) :
    (cmLinkChar reg cid c).1.sibling_objs =
      if c.get_sibling_ids.isEmpty then c.sibling_objs
      else (cmResolveList reg (cmSiblingWarnMsg cid) c.get_sibling_ids).1 := by
  unfold cmLinkChar; dsimp only
  rw [cmLinkSiblings_sibling_objs, Character.get_sibling_ids, cmLinkChildren_rel,
    cmLinkParents_rel, cmLinkSpouse_rel, cmLinkChildren_sibling_objs,
    cmLinkParents_sibling_objs, cmLinkSpouse_sibling_objs, ← Character.get_sibling_ids]

theorem cmLinkChar_warns (reg : List (String × Character)) (cid : String) (c : Character) :
    (cmLinkChar reg cid c).2 =
      (match c.get_spouse_id with
       | some sid =>
         if sid.isEmpty then []
         else if regGet reg sid = none then [cmSpouseWarnMsg cid sid] else []
       | none => []) ++
      (if c.get_parent_ids.isEmpty then []
       else (cmResolveList reg (cmParentWarnMsg cid) c.get_parent_ids).2) ++
      (if c.get_children_ids.isEmpty then []
       else (cmResolveList reg (cmChildWarnMsg cid) c.get_children_ids).2) ++
      (if c.get_sibling_ids.isEmpty then []
       else (cmResolveList reg (cmSiblingWarnMsg cid) c.get_sibling_ids).2) := by
  unfold cmLinkChar; dsimp only
  rw [cmLinkSpouse_warns, cmLinkParents_warns, cmLinkChildren_warns, cmLinkSiblings_warns,
    Character.get_parent_ids, Character.get_children_ids, Character.get_sibling_ids,
    cmLinkChildren_rel, cmLinkParents_rel, cmLinkSpouse_rel]
  rfl

/-! ### Field behaviour of the GameState link steps -/

theorem gsResolveList_spec (reg : List (String × Character)) (mkLog mkErr : String → String)
    (wk : WellKeyed reg) (l : List String) :
    gsResolveList reg mkLog mkErr l =
      (foundFilter reg l,
        (l.filter fun i => !(regGet reg i).isSome).map mkLog,
        (l.filter fun i => !(regGet reg i).isSome).map mkErr) := by
  induction l with
  | nil => simp [gsResolveList, foundFilter]
  | cons i rest ih =>
    cases h : regGet reg i with
    | some ch =>
      have hid : ch.id = i := regGet_eq_some_id reg i ch wk h
      simp [gsResolveList, foundFilter, h, ih, hid, List.filter_cons]
    | none =>
      simp [gsResolveList, foundFilter, h, ih, List.filter_cons]

theorem gsResolveList_errs_mem (reg : List (String × Character))
    (mkLog mkErr : String → String) (l : List String) :
    ∀ m ∈ (gsResolveList reg mkLog mkErr l).2.2, ∃ i, m = mkErr i := by
  induction l with
  | nil => simp [gsResolveList]
  | cons i rest ih =>
    cases h : regGet reg i with
    | some ch =>
      simpa [gsResolveList, h] using ih
    | none =>
      intro m hm
      simp [gsResolveList, h] at hm
      rcases hm with hm | hm
      · exact ⟨i, hm⟩
      · exact ih m hm

theorem gsLinkSpouse_rel (reg : List (String × Character)) (cid : String) (c : Character) :
    (gsLinkSpouse reg cid c).1.relationships_data = c.relationships_data := by
  unfold gsLinkSpouse; dsimp only; repeat' split
  all_goals simp

theorem gsLinkSpouse_parent_objs (reg : List (String × Character)) (cid : String)
    (c : Character) : (gsLinkSpouse reg cid c).1.parent_objs = c.parent_objs := by
  unfold gsLinkSpouse; dsimp only; repeat' split
  all_goals simp

theorem gsLinkSpouse_children_objs (reg : List (String × Character)) (cid : String)
    (c : Character) : (gsLinkSpouse reg cid c).1.children_objs = c.children_objs := by
  unfold gsLinkSpouse; dsimp only; repeat' split
  all_goals simp

theorem gsLinkSpouse_sibling_objs (reg : List (String × Character)) (cid : String)
    (c : Character) : (gsLinkSpouse reg cid c).1.sibling_objs = c.sibling_objs := by
  unfold gsLinkSpouse; dsimp only; repeat' split
  all_goals simp

theorem gsLinkSpouse_spouse_obj (reg : List (String × Character)) (cid : String)
    (c : Character) :
    (gsLinkSpouse reg cid c).1.spouse_obj =
      match c.get_spouse_id with
      | some sid =>
        if sid.isEmpty then c.spouse_obj else (regGet reg sid).map Character.id
      | none => c.spouse_obj := by
  unfold gsLinkSpouse; dsimp only; repeat' split
  all_goals simp_all

theorem gsLinkParents_rel (reg : List (String × Character)) (cid : String) (c : Character) :
    (gsLinkParents reg cid c).1.relationships_data = c.relationships_data := by
  unfold gsLinkParents; dsimp only; split
  all_goals simp

theorem gsLinkParents_spouse_obj (reg : List (String × Character)) (cid : String)
    (c : Character) : (gsLinkParents reg cid c).1.spouse_obj = c.spouse_obj := by
  unfold gsLinkParents; dsimp only; split
  all_goals simp

theorem gsLinkParents_children_objs (reg : List (String × Character)) (cid : String)
    (c : Character) : (gsLinkParents reg cid c).1.children_objs = c.children_objs := by
  unfold gsLinkParents; dsimp only; split
  all_goals simp

theorem gsLinkParents_sibling_objs (reg : List (String × Character)) (cid : String)
    (c : Character) : (gsLinkParents reg cid c).1.sibling_objs = c.sibling_objs := by
  unfold gsLinkParents; dsimp only; split
  all_goals simp

theorem gsLinkParents_parent_objs (reg : List (String × Character)) (cid : String)
    (c : Character) :
    (gsLinkParents reg cid c).1.parent_objs =
      if c.get_parent_ids.isEmpty then c.parent_objs
      else (gsResolveList reg (fun i => gsParentWarnLog i cid)
        (fun i => gsParentWarnErr i cid) c.get_parent_ids).1 := by
  unfold gsLinkParents; dsimp only; split
  all_goals simp_all

theorem gsLinkChildren_rel (reg : List (String × Character)) (cid : String) (c : Character) :
    (gsLinkChildren reg cid c).1.relationships_data = c.relationships_data := by
  unfold gsLinkChildren; dsimp only; split
  all_goals simp

theorem gsLinkChildren_spouse_obj (reg : List (String × Character)) (cid : String)
    (c : Character) : (gsLinkChildren reg cid c).1.spouse_obj = c.spouse_obj := by
  unfold gsLinkChildren; dsimp only; split
  all_goals simp

theorem gsLinkChildren_parent_objs (reg : List (String × Character)) (cid : String)
    (c : Character) : (gsLinkChildren reg cid c).1.parent_objs = c.parent_objs := by
  unfold gsLinkChildren; dsimp only; split
  all_goals simp

theorem gsLinkChildren_sibling_objs (reg : List (String × Character)) (cid : String)
    (c : Character) : (gsLinkChildren reg cid c).1.sibling_objs = c.sibling_objs := by
  unfold gsLinkChildren; dsimp only; split
  all_goals simp

theorem gsLinkChildren_children_objs (reg : List (String × Character)) (cid : String)
    (c : Character) :
    (gsLinkChildren reg cid c).1.children_objs =
      if c.get_children_ids.isEmpty then c.children_objs
      else (gsResolveList reg (fun i => gsChildWarnLog i cid)
        (fun i => gsChildWarnErr i cid) c.get_children_ids).1 := by
  unfold gsLinkChildren; dsimp only; split
  all_goals simp_all

theorem gsLinkSiblings_rel (reg : List (String × Character)) (cid : String) (c : Character) :
    (gsLinkSiblings reg cid c).1.relationships_data = c.relationships_data := by
  unfold gsLinkSiblings; dsimp only; split
  all_goals simp

theorem gsLinkSiblings_spouse_obj (reg : List (String × Character)) (cid : String)
    (c : Character) : (gsLinkSiblings reg cid c).1.spouse_obj = c.spouse_obj := by
  unfold gsLinkSiblings; dsimp only; split
  all_goals simp

theorem gsLinkSiblings_parent_objs (reg : List (String × Character)) (cid : String)
    (c : Character) : (gsLinkSiblings reg cid c).1.parent_objs = c.parent_objs := by
  unfold gsLinkSiblings; dsimp only; split
  all_goals simp

theorem gsLinkSiblings_children_objs (reg : List (String × Character)) (cid : String)
    (c : Character) : (gsLinkSiblings reg cid c).1.children_objs = c.children_objs := by
  unfold gsLinkSiblings; dsimp only; split
  all_goals simp

theorem gsLinkSiblings_sibling_objs (reg : List (String × Character)) (cid : String)
    (c : Character) :
    (gsLinkSiblings reg cid c).1.sibling_objs =
      if c.get_sibling_ids.isEmpty then c.sibling_objs
      else (gsResolveList reg (fun i => gsSiblingWarnLog i cid)
        (fun i => gsSiblingWarnErr i cid) c.get_sibling_ids).1 := by
  unfold gsLinkSiblings; dsimp only; split
  all_goals simp_all

theorem gsLinkChar_spouse_obj (reg : List (String × Character)) (cid : String)
    (c : Character) :
    (gsLinkChar reg cid c).1.spouse_obj =
      match c.get_spouse_id with
      | some sid =>
        if sid.isEmpty then c.spouse_obj else (regGet reg sid).map Character.id
      | none => c.spouse_obj := by
  unfold gsLinkChar; dsimp only
  rw [gsLinkSiblings_spouse_obj, gsLinkChildren_spouse_obj, gsLinkParents_spouse_obj,
    gsLinkSpouse_spouse_obj]

theorem gsLinkChar_parent_objs (reg : List (String × Character)) (cid : String)
    (c : Character) :
    (gsLinkChar reg cid c).1.parent_objs =
      if c.get_parent_ids.isEmpty then c.parent_objs
      else (gsResolveList reg (fun i => gsParentWarnLog i cid)
        (fun i => gsParentWarnErr i cid) c.get_parent_ids).1 := by
  unfold gsLinkChar; dsimp only
  rw [gsLinkSiblings_parent_objs, gsLinkChildren_parent_objs, gsLinkParents_parent_objs,
    Character.get_parent_ids, gsLinkSpouse_rel, gsLinkSpouse_parent_objs,
    ← Character.get_parent_ids]

theorem gsLinkChar_children_objs (reg : List (String × Character)) (cid : String)
    (c : Character) :
    (gsLinkChar reg cid c).1.children_objs =
      if c.get_children_ids.isEmpty then c.children_objs
      else (gsResolveList reg (fun i => gsChildWarnLog i cid)
        (fun i => gsChildWarnErr i cid) c.get_children_ids).1 := by
  unfold gsLinkChar; dsimp only
  rw [gsLinkSiblings_children_objs, gsLinkChildren_children_objs,
    Character.get_children_ids, gsLinkParents_rel, gsLinkSpouse_rel,
    gsLinkParents_children_objs, gsLinkSpouse_children_objs, ← Character.get_children_ids]

theorem gsLinkChar_sibling_objs (reg : List (String × Character)) (cid : String)
    (c : Character) :
    (gsLinkChar reg cid c).1.sibling_objs =
      if c.get_sibling_ids.isEmpty then c.sibling_objs
      else (gsResolveList reg (fun i => gsSiblingWarnLog i cid)
        (fun i => gsSiblingWarnErr i cid) c.get_sibling_ids).1 := by
  unfold gsLinkChar; dsimp only
  rw [gsLinkSiblings_sibling_objs, Character.get_sibling_ids, gsLinkChildren_rel,
    gsLinkParents_rel, gsLinkSpouse_rel, gsLinkChildren_sibling_objs,
    gsLinkParents_sibling_objs, gsLinkSpouse_sibling_objs, ← Character.get_sibling_ids]

/-! ### Message tags

Every message family the pipelines emit starts with a fixed literal of
at least eight characters, so `msgTag` separates the families no matter
what ids or file names are interpolated. -/

theorem cmLoadFailMsg_tag (base e : String) :
    msgTag (cmLoadFailMsg base e) = "Failed t".data := by
  unfold cmLoadFailMsg
  simp only [String.append_assoc]
  rw [msgTag_concat _ _ (by decide)]
  decide

theorem cmDupMsg_tag (i : String) : msgTag (cmDupMsg i) = "Duplicat".data := by
  unfold cmDupMsg
  simp only [String.append_assoc]
  rw [msgTag_concat _ _ (by decide)]
  decide

theorem cmMultiMsg_tag (old neu : String) :
    msgTag (cmMultiMsg old neu) = "Multiple".data := by
  unfold cmMultiMsg
  simp only [String.append_assoc]
  rw [msgTag_concat _ _ (by decide)]
  decide

theorem cmDirErrMsg_tag (p : String) : msgTag (cmDirErrMsg p) = "Characte".data := by
  unfold cmDirErrMsg
  rw [msgTag_concat _ _ (by decide)]
  decide

theorem gsLoadFailMsg_tag (base e : String) :
    msgTag (gsLoadFailMsg base e) = "ERROR: F".data := by
  unfold gsLoadFailMsg
  simp only [String.append_assoc]
  rw [msgTag_concat _ _ (by decide)]
  decide

theorem gsDupMsg_tag (i base : String) : msgTag (gsDupMsg i base) = "ERROR: D".data := by
  unfold gsDupMsg
  simp only [String.append_assoc]
  rw [msgTag_concat _ _ (by decide)]
  decide

theorem gsMultiMsg_tag (old neu : String) :
    msgTag (gsMultiMsg old neu) = "ERROR: M".data := by
  unfold gsMultiMsg
  simp only [String.append_assoc]
  rw [msgTag_concat _ _ (by decide)]
  decide

theorem gsDirErrMsg_tag (p : String) : msgTag (gsDirErrMsg p) = "ERROR: C".data := by
  unfold gsDirErrMsg
  rw [msgTag_concat _ _ (by decide)]
  decide

theorem gsLoadingMsg_tag (base : String) : msgTag (gsLoadingMsg base) = "  Loadin".data := by
  unfold gsLoadingMsg
  rw [msgTag_concat _ _ (by decide)]
  decide

theorem gsStartMsg_tag (p : String) : msgTag (gsStartMsg p) = "Starting".data := by
  unfold gsStartMsg
  rw [msgTag_concat _ _ (by decide)]
  decide

theorem gsNoFilesMsg_tag (p : String) : msgTag (gsNoFilesMsg p) = "WARN: No".data := by
  unfold gsNoFilesMsg
  simp only [String.append_assoc]
  rw [msgTag_concat _ _ (by decide)]
  decide

theorem gsSuccessMsg_tag (n : Nat) : msgTag (gsSuccessMsg n) = "Successf".data := by
  unfold gsSuccessMsg
  simp only [String.append_assoc]
  rw [msgTag_concat _ _ (by decide)]
  decide

theorem gsFinishedErrsMsg_tag (n : Nat) :
    msgTag (gsFinishedErrsMsg n) = "Characte".data := by
  unfold gsFinishedErrsMsg
  simp only [String.append_assoc]
  rw [msgTag_concat _ _ (by decide)]
  decide

theorem gsSpouseWarnErr_tag (sid cid : String) :
    msgTag (gsSpouseWarnErr sid cid) = "Linking ".data := by
  unfold gsSpouseWarnErr
  simp only [String.append_assoc]
  rw [msgTag_concat _ _ (by decide)]
  decide

theorem gsParentWarnErr_tag (pid cid : String) :
    msgTag (gsParentWarnErr pid cid) = "Linking ".data := by
  unfold gsParentWarnErr
  simp only [String.append_assoc]
  rw [msgTag_concat _ _ (by decide)]
  decide

theorem gsChildWarnErr_tag (kid cid : String) :
    msgTag (gsChildWarnErr kid cid) = "Linking ".data := by
  unfold gsChildWarnErr
  simp only [String.append_assoc]
  rw [msgTag_concat _ _ (by decide)]
  decide

theorem gsSiblingWarnErr_tag (sid cid : String) :
    msgTag (gsSiblingWarnErr sid cid) = "Linking ".data := by
  unfold gsSiblingWarnErr
  simp only [String.append_assoc]
  rw [msgTag_concat _ _ (by decide)]
  decide

/-! ### GameState link loop lemmas -/

theorem gsLinkSpouse_errs_mem (reg : List (String × Character)) (cid : String)
    (c : Character) :
    ∀ m ∈ (gsLinkSpouse reg cid c).2.2, ∃ sid, m = gsSpouseWarnErr sid cid := by
  unfold gsLinkSpouse; dsimp only; repeat' split
  all_goals simp_all
  exact ⟨_, rfl⟩

theorem gsLinkParents_errs_mem (reg : List (String × Character)) (cid : String)
    (c : Character) :
    ∀ m ∈ (gsLinkParents reg cid c).2.2, ∃ i, m = gsParentWarnErr i cid := by
  unfold gsLinkParents; dsimp only; split
  · simp
  · exact gsResolveList_errs_mem reg _ _ c.get_parent_ids

theorem gsLinkChildren_errs_mem (reg : List (String × Character)) (cid : String)
    (c : Character) :
    ∀ m ∈ (gsLinkChildren reg cid c).2.2, ∃ i, m = gsChildWarnErr i cid := by
  unfold gsLinkChildren; dsimp only; split
  · simp
  · exact gsResolveList_errs_mem reg _ _ c.get_children_ids

theorem gsLinkSiblings_errs_mem (reg : List (String × Character)) (cid : String)
    (c : Character) :
    ∀ m ∈ (gsLinkSiblings reg cid c).2.2, ∃ i, m = gsSiblingWarnErr i cid := by
  unfold gsLinkSiblings; dsimp only; split
  · simp
  · exact gsResolveList_errs_mem reg _ _ c.get_sibling_ids

/-- Every error-list entry produced by linking one character carries the
`Linking ` tag. -/
theorem gsLinkChar_errs_tag (reg : List (String × Character)) (cid : String)
    (c : Character) :
    ∀ m ∈ (gsLinkChar reg cid c).2.2, msgTag m = "Linking ".data := by
  intro m hm
  unfold gsLinkChar at hm
  dsimp only at hm
  simp only [List.mem_append] at hm
  rcases hm with ((h | h) | h) | h
  · obtain ⟨sid, rfl⟩ := gsLinkSpouse_errs_mem reg cid c m h
    exact gsSpouseWarnErr_tag sid cid
  · obtain ⟨i, rfl⟩ := gsLinkParents_errs_mem reg cid _ m h
    exact gsParentWarnErr_tag i cid
  · obtain ⟨i, rfl⟩ := gsLinkChildren_errs_mem reg cid _ m h
    exact gsChildWarnErr_tag i cid
  · obtain ⟨i, rfl⟩ := gsLinkSiblings_errs_mem reg cid _ m h
    exact gsSiblingWarnErr_tag i cid

theorem gsLinkLoop_keys (keys : List String) (s : GSState) :
    (gsLinkLoop s keys).characters.map Prod.fst = s.characters.map Prod.fst := by
  induction keys generalizing s with
  | nil => rfl
  | cons k rest ih =>
    cases h : regGet s.characters k with
    | none => simp [gsLinkLoop, h, ih]
    | some c => simp [gsLinkLoop, h, ih, regSet_keys]

theorem gsLinkLoop_player (keys : List String) (s : GSState) :
    (gsLinkLoop s keys).player_character_id = s.player_character_id := by
  induction keys generalizing s with
  | nil => rfl
  | cons k rest ih =>
    cases h : regGet s.characters k with
    | none => simp [gsLinkLoop, h, ih]
    | some c => simp [gsLinkLoop, h, ih]

theorem gsLinkLoop_ilc (keys : List String) (s : GSState) :
    (gsLinkLoop s keys).initial_load_complete = s.initial_load_complete := by
  induction keys generalizing s with
  | nil => rfl
  | cons k rest ih =>
    cases h : regGet s.characters k with
    | none => simp [gsLinkLoop, h, ih]
    | some c => simp [gsLinkLoop, h, ih]

theorem gsLinkLoop_errors_tagged (keys : List String) (s : GSState) :
    ∃ t, (gsLinkLoop s keys).loading_errors = s.loading_errors ++ t ∧
      ∀ m ∈ t, msgTag m = "Linking ".data := by
  induction keys generalizing s with
  | nil => exact ⟨[], by simp [gsLinkLoop]⟩
  | cons k rest ih =>
    cases h : regGet s.characters k with
    | none => simpa [gsLinkLoop, h] using ih s
    | some c =>
      obtain ⟨t, ht, htag⟩ := ih
        { s with characters := regSet s.characters k (gsLinkChar s.characters k c).1,
                 log_messages := s.log_messages ++ (gsLinkChar s.characters k c).2.1,
                 loading_errors := s.loading_errors ++ (gsLinkChar s.characters k c).2.2 }
      refine ⟨(gsLinkChar s.characters k c).2.2 ++ t, ?_, ?_⟩
      · simp [gsLinkLoop, h, ht, List.append_assoc]
      · intro m hm
        rcases List.mem_append.mp hm with hm | hm
        · exact gsLinkChar_errs_tag s.characters k c m hm
        · exact htag m hm

theorem gsLinkLoop_log_ext (keys : List String) (s : GSState) :
    ∃ t, (gsLinkLoop s keys).log_messages = s.log_messages ++ t := by
  induction keys generalizing s with
  | nil => exact ⟨[], by simp [gsLinkLoop]⟩
  | cons k rest ih =>
    cases h : regGet s.characters k with
    | none => simpa [gsLinkLoop, h] using ih s
    | some c =>
      obtain ⟨t, ht⟩ := ih
        { s with characters := regSet s.characters k (gsLinkChar s.characters k c).1,
                 log_messages := s.log_messages ++ (gsLinkChar s.characters k c).2.1,
                 loading_errors := s.loading_errors ++ (gsLinkChar s.characters k c).2.2 }
      exact ⟨(gsLinkChar s.characters k c).2.1 ++ t, by
        simp [gsLinkLoop, h, ht, List.append_assoc]⟩

theorem gsLinkPhase_keys (s : GSState) :
    (gsLinkPhase s).characters.map Prod.fst = s.characters.map Prod.fst := by
  unfold gsLinkPhase
  dsimp only
  split <;> simp [GSState.add_log, gsLinkLoop_keys]

theorem gsLinkPhase_player (s : GSState) :
    (gsLinkPhase s).player_character_id = s.player_character_id := by
  unfold gsLinkPhase
  dsimp only
  split <;> simp [GSState.add_log, gsLinkLoop_player]

theorem gsLinkPhase_ilc (s : GSState) :
    (gsLinkPhase s).initial_load_complete = s.initial_load_complete := by
  unfold gsLinkPhase
  dsimp only
  split <;> simp [GSState.add_log, gsLinkLoop_ilc]

theorem gsLinkPhase_errors_tagged (s : GSState) :
    ∃ t, (gsLinkPhase s).loading_errors = s.loading_errors ++ t ∧
      ∀ m ∈ t, msgTag m = "Linking ".data := by
  unfold gsLinkPhase
  dsimp only
  split
  · exact ⟨[], by simp [GSState.add_log]⟩
  · obtain ⟨t, ht, htag⟩ := gsLinkLoop_errors_tagged
      ((GSState.add_log s gsLinkStartMsg).characters.map Prod.fst)
      (GSState.add_log s gsLinkStartMsg)
    exact ⟨t, by simp [GSState.add_log] at ht ⊢; simp [ht], htag⟩

theorem gsLinkPhase_log_ext (s : GSState) :
    ∃ t, (gsLinkPhase s).log_messages = s.log_messages ++ (gsLinkStartMsg :: t) := by
  unfold gsLinkPhase
  dsimp only
  split
  · exact ⟨[gsNoCharsMsg], by simp [GSState.add_log]⟩
  · obtain ⟨t, ht⟩ := gsLinkLoop_log_ext
      ((GSState.add_log s gsLinkStartMsg).characters.map Prod.fst)
      (GSState.add_log s gsLinkStartMsg)
    exact ⟨t ++ [gsLinkDoneMsg], by simp [GSState.add_log] at ht ⊢; simp [ht]⟩

/-! ### Characterization of the GameState per-file loop -/

theorem gsFileLoop_spec (files : List RawFile) (s : GSState) (count : Nat) :
    gsFileLoop s count files =
      ({ s with
          characters := s.characters ++
            (newEntries (s.characters.map Prod.fst) (okChars files)).map (fun c => (c.id, c)),
          player_character_id :=
            playerAfter s.player_character_id (s.characters.map Prod.fst) (okChars files),
          log_messages := s.log_messages ++
            gsLoopLogs s.player_character_id (s.characters.map Prod.fst) files,
          loading_errors := s.loading_errors ++
            gsLoopMsgs s.player_character_id (s.characters.map Prod.fst) files },
        count + (newEntries (s.characters.map Prod.fst) (okChars files)).length) := by
  induction files generalizing s count with
  | nil => simp [gsFileLoop, okChars, newEntries, playerAfter, gsLoopLogs, gsLoopMsgs]
  | cons f rest ih =>
    cases h : Character.load_from_yaml_file f.path f.data with
    | error e =>
      simp [gsFileLoop, okChars, newEntries, playerAfter, gsLoopLogs, gsLoopMsgs, gsMultiNote, h, ih,
        GSState.add_log, GSState.add_both, List.filterMap_cons, Except.toOption,
        List.append_assoc]
    | ok c =>
      by_cases hin : c.id ∈ s.characters.map Prod.fst
      · have hsome : (regGet s.characters c.id).isSome = true :=
          (regGet_isSome_iff _ _).mpr hin
        simp [gsFileLoop, okChars, newEntries, playerAfter, gsLoopLogs, gsLoopMsgs, gsMultiNote, h, ih,
          GSState.add_log, GSState.add_both, List.filterMap_cons, Except.toOption,
          hin, hsome, List.append_assoc]
      · have hnone : ¬(regGet s.characters c.id).isSome = true := fun hh =>
          hin ((regGet_isSome_iff _ _).mp hh)
        by_cases hp : c.is_player
        · cases hpl : s.player_character_id with
          | some old =>
            simp [gsFileLoop, okChars, newEntries, playerAfter, gsLoopLogs, gsLoopMsgs, gsMultiNote,
              h, ih, GSState.add_log, GSState.add_both, List.filterMap_cons,
              Except.toOption, hin, hnone, hp, hpl, List.append_assoc, Nat.add_assoc,
              Nat.add_comm 1]
          | none =>
            simp [gsFileLoop, okChars, newEntries, playerAfter, gsLoopLogs, gsLoopMsgs, gsMultiNote,
              h, ih, GSState.add_log, GSState.add_both, List.filterMap_cons,
              Except.toOption, hin, hnone, hp, hpl, List.append_assoc, Nat.add_assoc,
              Nat.add_comm 1]
        · simp [gsFileLoop, okChars, newEntries, playerAfter, gsLoopLogs, gsLoopMsgs, gsMultiNote,
            h, ih, GSState.add_log, GSState.add_both, List.filterMap_cons,
            Except.toOption, hin, hnone, hp, List.append_assoc, Nat.add_assoc,
            Nat.add_comm 1]

/-! ### Properties of the pure phase descriptions -/

theorem playerAfter_getLast (objs : List Character) (p : Option String)
    (pids : List String) :
    playerAfter p pids objs =
      (((newEntries pids objs).filter fun c => c.is_player).getLast?.map Character.id).or p := by
  induction objs generalizing p pids with
  | nil => simp [playerAfter, newEntries]
  | cons c rest ih =>
    by_cases hin : c.id ∈ pids
    · simp [playerAfter, newEntries, hin, ih]
    · by_cases hp : c.is_player
      · rw [playerAfter, if_neg hin, if_pos hp, ih]
        rw [newEntries, if_neg hin]
        rw [List.filter_cons_of_pos (by simpa using hp), List.getLast?_cons]
        cases hl : ((newEntries (pids ++ [c.id]) rest).filter fun c => c.is_player).getLast? with
        | some d => simp [hl]
        | none => simp [hl]
      · rw [playerAfter, if_neg hin, if_neg hp, ih]
        rw [newEntries, if_neg hin]
        rw [List.filter_cons_of_neg (by simpa using hp)]

theorem playerAfter_mem (objs : List Character) (p : Option String) (pids : List String)
    (q : String) (h : playerAfter p pids objs = some q) :
    p = some q ∨ q ∈ (newEntries pids objs).map Character.id := by
  induction objs generalizing p pids with
  | nil => exact Or.inl (by simpa [playerAfter] using h)
  | cons c rest ih =>
    by_cases hin : c.id ∈ pids
    · rw [playerAfter, if_pos hin] at h
      rcases ih _ _ h with h' | h'
      · exact Or.inl h'
      · exact Or.inr (by simpa [newEntries, hin] using h')
    · by_cases hp : c.is_player
      · rw [playerAfter, if_neg hin, if_pos hp] at h
        rcases ih _ _ h with h' | h'
        · refine Or.inr ?_
          simp [newEntries, hin]
          exact Or.inl (by simpa using h'.symm)
        · exact Or.inr (by simp [newEntries, hin]; exact Or.inr (by simpa using h'))
      · rw [playerAfter, if_neg hin, if_neg hp] at h
        rcases ih _ _ h with h' | h'
        · exact Or.inl h'
        · exact Or.inr (by simp [newEntries, hin]; exact Or.inr (by simpa using h'))

theorem cmRegMsgs_first_player (objs : List Character) (pids : List String) (aid : String)
    (b : Character) (l2 : List Character)
    (h : (newEntries pids objs).filter (fun c => c.is_player) = b :: l2) :
    cmMultiMsg aid b.id ∈ cmRegMsgs (some aid) pids objs := by
  induction objs generalizing pids with
  | nil => simp [newEntries] at h
  | cons c rest ih =>
    by_cases hin : c.id ∈ pids
    · rw [newEntries, if_pos hin] at h
      rw [cmRegMsgs, if_pos hin]
      exact List.mem_cons_of_mem _ (ih _ h)
    · by_cases hp : c.is_player
      · rw [newEntries, if_neg hin, List.filter_cons_of_pos (by simpa using hp)] at h
        have h1 : c = b := (List.cons_eq_cons.mp h).1
        subst h1
        rw [cmRegMsgs, if_neg hin, if_pos hp]
        exact List.mem_append.mpr (Or.inl (by simp [cmMultiNote]))
      · rw [newEntries, if_neg hin, List.filter_cons_of_neg (by simpa using hp)] at h
        rw [cmRegMsgs, if_neg hin, if_neg hp]
        exact ih _ h

theorem cmRegMsgs_adjacent (objs : List Character) (pids : List String) (p : Option String)
    (l1 : List Character) (a b : Character) (l2 : List Character)
    (h : (newEntries pids objs).filter (fun c => c.is_player) = l1 ++ a :: b :: l2) :
    cmMultiMsg a.id b.id ∈ cmRegMsgs p pids objs := by
  induction objs generalizing pids p l1 with
  | nil => simp [newEntries] at h
  | cons c rest ih =>
    by_cases hin : c.id ∈ pids
    · rw [newEntries, if_pos hin] at h
      rw [cmRegMsgs, if_pos hin]
      exact List.mem_cons_of_mem _ (ih _ _ _ h)
    · by_cases hp : c.is_player
      · rw [newEntries, if_neg hin, List.filter_cons_of_pos (by simpa using hp)] at h
        rw [cmRegMsgs, if_neg hin, if_pos hp]
        cases l1 with
        | nil =>
          simp only [List.nil_append] at h
          have h1 : c = a := (List.cons_eq_cons.mp h).1
          have h2 := (List.cons_eq_cons.mp h).2
          subst h1
          exact List.mem_append.mpr
            (Or.inr (cmRegMsgs_first_player rest _ c.id b l2 h2))
        | cons x l1' =>
          simp only [List.cons_append] at h
          have h1 : c = x := (List.cons_eq_cons.mp h).1
          have h2 := (List.cons_eq_cons.mp h).2
          exact List.mem_append.mpr (Or.inr (ih _ _ _ h2))
      · rw [newEntries, if_neg hin, List.filter_cons_of_neg (by simpa using hp)] at h
        rw [cmRegMsgs, if_neg hin, if_neg hp]
        exact ih _ _ _ h

theorem gsLoopMsgs_first_player (files : List RawFile) (pids : List String) (aid : String)
    (b : Character) (l2 : List Character)
    (h : (newEntries pids (okChars files)).filter (fun c => c.is_player) = b :: l2) :
    gsMultiMsg aid b.id ∈ gsLoopMsgs (some aid) pids files := by
  induction files generalizing pids with
  | nil => simp [newEntries, okChars] at h
  | cons f rest ih =>
    cases hl : Character.load_from_yaml_file f.path f.data with
    | error e =>
      rw [okChars, List.filterMap_cons] at h
      simp only [hl, Except.toOption] at h
      rw [gsLoopMsgs]
      simp only [hl]
      exact List.mem_cons_of_mem _ (ih _ h)
    | ok c =>
      rw [okChars, List.filterMap_cons] at h
      simp only [hl, Except.toOption] at h
      rw [gsLoopMsgs]
      simp only [hl]
      by_cases hin : c.id ∈ pids
      · rw [newEntries, if_pos hin] at h
        rw [if_pos hin]
        exact List.mem_cons_of_mem _ (ih _ h)
      · by_cases hp : c.is_player
        · rw [newEntries, if_neg hin, List.filter_cons_of_pos (by simpa using hp)] at h
          have h1 : c = b := (List.cons_eq_cons.mp h).1
          subst h1
          rw [if_neg hin, if_pos hp]
          exact List.mem_append.mpr (Or.inl (by simp [gsMultiNote]))
        · rw [newEntries, if_neg hin, List.filter_cons_of_neg (by simpa using hp)] at h
          rw [if_neg hin, if_neg hp]
          exact ih _ h

theorem gsLoopMsgs_adjacent (files : List RawFile) (pids : List String) (p : Option String)
    (l1 : List Character) (a b : Character) (l2 : List Character)
    (h : (newEntries pids (okChars files)).filter (fun c => c.is_player) = l1 ++ a :: b :: l2) :
    gsMultiMsg a.id b.id ∈ gsLoopMsgs p pids files := by
  induction files generalizing pids p l1 with
  | nil => simp [newEntries, okChars] at h
  | cons f rest ih =>
    cases hl : Character.load_from_yaml_file f.path f.data with
    | error e =>
      rw [okChars, List.filterMap_cons] at h
      simp only [hl, Except.toOption] at h
      rw [gsLoopMsgs]
      simp only [hl]
      exact List.mem_cons_of_mem _ (ih _ _ _ h)
    | ok c =>
      rw [okChars, List.filterMap_cons] at h
      simp only [hl, Except.toOption] at h
      rw [gsLoopMsgs]
      simp only [hl]
      by_cases hin : c.id ∈ pids
      · rw [newEntries, if_pos hin] at h
        rw [if_pos hin]
        exact List.mem_cons_of_mem _ (ih _ _ _ h)
      · by_cases hp : c.is_player
        · rw [newEntries, if_neg hin, List.filter_cons_of_pos (by simpa using hp)] at h
          rw [if_neg hin, if_pos hp]
          cases l1 with
          | nil =>
            simp only [List.nil_append] at h
            have h1 : c = a := (List.cons_eq_cons.mp h).1
            have h2 := (List.cons_eq_cons.mp h).2
            subst h1
            exact List.mem_append.mpr
              (Or.inr (gsLoopMsgs_first_player rest _ c.id b l2 h2))
          | cons x l1' =>
            simp only [List.cons_append] at h
            have h1 : c = x := (List.cons_eq_cons.mp h).1
            have h2 := (List.cons_eq_cons.mp h).2
            exact List.mem_append.mpr (Or.inr (ih _ _ _ h2))
        · rw [newEntries, if_neg hin, List.filter_cons_of_neg (by simpa using hp)] at h
          rw [if_neg hin, if_neg hp]
          exact ih _ _ _ h

theorem cmParseMsgs_tag (files : List RawFile) :
    ∀ m ∈ cmParseMsgs files, msgTag m = "Failed t".data := by
  induction files with
  | nil => simp [cmParseMsgs]
  | cons f rest ih =>
    cases hl : Character.load_from_yaml_file f.path f.data with
    | ok c => simpa [cmParseMsgs, hl] using ih
    | error e =>
      intro m hm
      rw [cmParseMsgs] at hm
      simp only [hl] at hm
      rcases List.mem_cons.mp hm with rfl | hm
      · exact cmLoadFailMsg_tag f.path e
      · exact ih m hm

theorem cmRegMsgs_tag (objs : List Character) (p : Option String) (pids : List String) :
    ∀ m ∈ cmRegMsgs p pids objs,
      msgTag m = "Duplicat".data ∨ msgTag m = "Multiple".data := by
  induction objs generalizing p pids with
  | nil => simp [cmRegMsgs]
  | cons c rest ih =>
    intro m hm
    by_cases hin : c.id ∈ pids
    · rw [cmRegMsgs, if_pos hin] at hm
      rcases List.mem_cons.mp hm with rfl | hm
      · exact Or.inl (cmDupMsg_tag c.id)
      · exact ih _ _ m hm
    · by_cases hp : c.is_player
      · rw [cmRegMsgs, if_neg hin, if_pos hp] at hm
        rcases List.mem_append.mp hm with hm | hm
        · cases hpl : p with
          | some old =>
            rw [hpl] at hm
            simp only [cmMultiNote, List.mem_singleton] at hm
            subst hm
            exact Or.inr (cmMultiMsg_tag old c.id)
          | none => rw [hpl] at hm; simp [cmMultiNote] at hm
        · exact ih _ _ m hm
      · rw [cmRegMsgs, if_neg hin, if_neg hp] at hm
        exact ih _ _ m hm

theorem gsLoopMsgs_tag (files : List RawFile) (p : Option String) (pids : List String) :
    ∀ m ∈ gsLoopMsgs p pids files,
      msgTag m = "ERROR: F".data ∨ msgTag m = "ERROR: D".data ∨
        msgTag m = "ERROR: M".data := by
  induction files generalizing p pids with
  | nil => simp [gsLoopMsgs]
  | cons f rest ih =>
    intro m hm
    rw [gsLoopMsgs] at hm
    cases hl : Character.load_from_yaml_file f.path f.data with
    | error e =>
      simp only [hl] at hm
      rcases List.mem_cons.mp hm with rfl | hm
      · exact Or.inl (gsLoadFailMsg_tag f.path e)
      · exact ih _ _ m hm
    | ok c =>
      simp only [hl] at hm
      by_cases hin : c.id ∈ pids
      · rw [if_pos hin] at hm
        rcases List.mem_cons.mp hm with rfl | hm
        · exact Or.inr (Or.inl (gsDupMsg_tag c.id f.path))
        · exact ih _ _ m hm
      · by_cases hp : c.is_player
        · rw [if_neg hin, if_pos hp] at hm
          rcases List.mem_append.mp hm with hm | hm
          · cases hpl : p with
            | some old =>
              rw [hpl] at hm
              simp only [gsMultiNote, List.mem_singleton] at hm
              subst hm
              exact Or.inr (Or.inr (gsMultiMsg_tag old c.id))
            | none => rw [hpl] at hm; simp [gsMultiNote] at hm
          · exact ih _ _ m hm
        · rw [if_neg hin, if_neg hp] at hm
          exact ih _ _ m hm

theorem gsLoopLogs_tag (files : List RawFile) (p : Option String) (pids : List String) :
    ∀ m ∈ gsLoopLogs p pids files,
      msgTag m = "  Loadin".data ∨ msgTag m = "ERROR: F".data ∨
        msgTag m = "ERROR: D".data ∨ msgTag m = "ERROR: M".data := by
  induction files generalizing p pids with
  | nil => simp [gsLoopLogs]
  | cons f rest ih =>
    intro m hm
    rw [gsLoopLogs] at hm
    rcases List.mem_cons.mp hm with rfl | hm
    · exact Or.inl (gsLoadingMsg_tag f.path)
    cases hl : Character.load_from_yaml_file f.path f.data with
    | error e =>
      simp only [hl] at hm
      rcases List.mem_cons.mp hm with rfl | hm
      · exact Or.inr (Or.inl (gsLoadFailMsg_tag f.path e))
      · exact ih _ _ m hm
    | ok c =>
      simp only [hl] at hm
      by_cases hin : c.id ∈ pids
      · rw [if_pos hin] at hm
        rcases List.mem_cons.mp hm with rfl | hm
        · exact Or.inr (Or.inr (Or.inl (gsDupMsg_tag c.id f.path)))
        · exact ih _ _ m hm
      · by_cases hp : c.is_player
        · rw [if_neg hin, if_pos hp] at hm
          rcases List.mem_append.mp hm with hm | hm
          · cases hpl : p with
            | some old =>
              rw [hpl] at hm
              simp only [gsMultiNote, List.mem_singleton] at hm
              subst hm
              exact Or.inr (Or.inr (Or.inr (gsMultiMsg_tag old c.id)))
            | none => rw [hpl] at hm; simp [gsMultiNote] at hm
          · exact ih _ _ m hm
        · rw [if_neg hin, if_neg hp] at hm
          exact ih _ _ m hm

/-! ### Result-level lemmas for `cmLoad` -/

theorem cmLoad_returns_true (s0 : CMState) (dp : String) (files : List RawFile) :
    (cmLoad s0 dp true files).2 = true := by
  unfold cmLoad
  dsimp only
  split
  · simp_all
  · split
    · rfl
    · split <;> split <;> rfl

/-- Unfolding of `cmLoad` on the main path (directory present, at least
one file): the reset, the two loops, the interim log lines, the
no-player check, the linking phase and the closing log line. -/
theorem cmLoad_eq_main (s0 : CMState) (dp : String) (files : List RawFile)
    (hne : files.isEmpty = false) :
    cmLoad s0 dp true files =
      (let s1 : CMState :=
        { characters := [], player_character_id := none,
          loading_log := [cmStartMsg dp, cmFoundMsg files.length], loading_errors := [] }
       let r := cmParseLoop s1 [] files
       let s2 := cmRegisterLoop r.1 [] r.2
       let s3 := s2.add_log (cmProcessedMsg s2.characters.length)
       let s4 :=
         if !s3.characters.isEmpty && s3.player_character_id.isNone then
           s3.add_error cmNoPlayerMsg
         else s3
       let s5 := cmLinkPhase s4
       if !s5.loading_errors.isEmpty then
         (s5.add_log (cmIssuesMsg s5.loading_errors.length), true)
       else (s5.add_log cmAllOkMsg, true)) := by
  unfold cmLoad
  simp only [hne, Bool.not_true, Bool.false_eq_true, if_false]
  rfl

theorem cmLoad_player (s0 : CMState) (dp : String) (files : List RawFile) :
    (cmLoad s0 dp true files).1.player_character_id =
      playerAfter none [] (okChars files) := by
  cases hemp : files.isEmpty with
  | true =>
    rw [List.isEmpty_iff] at hemp
    subst hemp
    rfl
  | false =>
    rw [cmLoad_eq_main s0 dp files hemp]
    dsimp only
    rw [cmParseLoop_spec]
    dsimp only
    rw [cmRegisterLoop_spec]
    dsimp only
    repeat' split
    all_goals simp [CMState.add_log, CMState.add_error, cmLinkPhase_player]

theorem cmLoad_keys (s0 : CMState) (dp : String) (files : List RawFile) :
    (cmLoad s0 dp true files).1.characters.map Prod.fst =
      (newEntries [] (okChars files)).map Character.id := by
  cases hemp : files.isEmpty with
  | true =>
    rw [List.isEmpty_iff] at hemp
    subst hemp
    rfl
  | false =>
    rw [cmLoad_eq_main s0 dp files hemp]
    dsimp only
    rw [cmParseLoop_spec]
    dsimp only
    rw [cmRegisterLoop_spec]
    dsimp only
    repeat' split
    all_goals
      (simp only [CMState.add_log, CMState.add_error, cmLinkPhase_keys]
       simp only [List.nil_append, List.map_map]
       rfl)

theorem cmLoad_errors (s0 : CMState) (dp : String) (files : List RawFile) :
    (cmLoad s0 dp true files).1.loading_errors =
      cmParseMsgs files ++ cmRegMsgs none [] (okChars files) ++
        (if !(newEntries [] (okChars files)).isEmpty &&
            (playerAfter none [] (okChars files)).isNone
         then [cmNoPlayerMsg] else []) := by
  cases hemp : files.isEmpty with
  | true =>
    rw [List.isEmpty_iff] at hemp
    subst hemp
    rfl
  | false =>
    rw [cmLoad_eq_main s0 dp files hemp]
    dsimp only
    rw [cmParseLoop_spec]
    dsimp only
    rw [cmRegisterLoop_spec]
    dsimp only
    have hmapemp : ∀ l : List Character,
        (l.map fun c => (c.id, c)).isEmpty = l.isEmpty := by
      intro l; cases l <;> simp
    simp only [CMState.add_log, CMState.add_error, List.nil_append, hmapemp]
    split <;> split <;>
      simp [CMState.add_log, CMState.add_error, cmLinkPhase_errors, List.append_assoc]

theorem cmLinkPhase_start_mem (s : CMState) :
    cmLinkStartMsg ∈ (cmLinkPhase s).loading_log := by
  obtain ⟨t, ht⟩ := cmLinkPhase_log_ext s
  rw [ht]
  simp

theorem cmLoad_linkStart (s0 : CMState) (dp : String) (files : List RawFile)
    (hne : files.isEmpty = false) :
    cmLinkStartMsg ∈ (cmLoad s0 dp true files).1.loading_log := by
  rw [cmLoad_eq_main s0 dp files hne]
  dsimp only
  repeat' split
  all_goals
    (simp only [CMState.add_log, List.mem_append]
     exact Or.inl (cmLinkPhase_start_mem _))

/-! ### The error-to-log relation of the CharacterManager (C9) -/

/-- Every error appears in the log, prefixed with `ERROR: `, in the same
order. -/
def errLogged (s : CMState) : Prop :=
  ((s.loading_errors).map fun m => "ERROR: " ++ m).Sublist s.loading_log

theorem errLogged_add_log (s : CMState) (m : String) (h : errLogged s) :
    errLogged (s.add_log m) :=
  h.trans (List.sublist_append_left _ _)

theorem errLogged_add_error (s : CMState) (m : String) (h : errLogged s) :
    errLogged (s.add_error m) := by
  unfold errLogged at h ⊢
  unfold CMState.add_error CMState.add_log
  dsimp only
  rw [List.map_append]
  exact h.append (List.Sublist.refl _)

theorem errLogged_parseLoop (files : List RawFile) (s : CMState) (objs : List Character)
    (h : errLogged s) : errLogged (cmParseLoop s objs files).1 := by
  rw [cmParseLoop_spec]
  unfold errLogged at h ⊢
  dsimp only
  rw [List.map_append]
  exact h.append (List.Sublist.refl _)

theorem errLogged_registerLoop (objs : List Character) (s : CMState) (pids : List String)
    (h : errLogged s) : errLogged (cmRegisterLoop s pids objs) := by
  rw [cmRegisterLoop_spec]
  unfold errLogged at h ⊢
  dsimp only
  rw [List.map_append]
  exact h.append (List.Sublist.refl _)

theorem errLogged_linkPhase (s : CMState) (h : errLogged s) :
    errLogged (cmLinkPhase s) := by
  unfold errLogged at h ⊢
  rw [cmLinkPhase_errors]
  obtain ⟨t, ht⟩ := cmLinkPhase_log_ext s
  rw [ht]
  exact h.trans (List.sublist_append_left _ _)

/-! ### Registry values after linking -/

theorem mapPair_isEmpty (l : List Character) :
    (l.map fun c => (c.id, c)).isEmpty = l.isEmpty := by
  cases l <;> simp

theorem cmLinkLoop_regGet_unlinked (keys : List String) (s : CMState) (k : String) :
    (regGet (cmLinkLoop s keys).characters k).map Character.unlinked =
      (regGet s.characters k).map Character.unlinked := by
  induction keys generalizing s with
  | nil => rfl
  | cons k' rest ih =>
    cases h : regGet s.characters k' with
    | none => simp [cmLinkLoop, h, ih]
    | some c =>
      rw [cmLinkLoop]
      simp only [h]
      rw [ih]
      dsimp only
      rw [regGet_regSet]
      by_cases hk : k' = k
      · subst hk
        rw [if_pos ⟨rfl, by simp [h]⟩, h]
        simp [cmLinkChar_unlinked]
      · rw [if_neg (fun hh => hk hh.1)]

theorem cmLinkPhase_regGet_unlinked (s : CMState) (k : String) :
    (regGet (cmLinkPhase s).characters k).map Character.unlinked =
      (regGet s.characters k).map Character.unlinked := by
  unfold cmLinkPhase
  dsimp only
  split
  · simp [CMState.add_log]
  · simp [CMState.add_log, cmLinkLoop_regGet_unlinked]

theorem cmLoad_regGet_unlinked (s0 : CMState) (dp : String) (files : List RawFile)
    (k : String) :
    (regGet (cmLoad s0 dp true files).1.characters k).map Character.unlinked =
      (regGet ((newEntries [] (okChars files)).map fun c => (c.id, c)) k).map
        Character.unlinked := by
  cases hemp : files.isEmpty with
  | true =>
    rw [List.isEmpty_iff] at hemp
    subst hemp
    rfl
  | false =>
    rw [cmLoad_eq_main s0 dp files hemp]
    dsimp only
    rw [cmParseLoop_spec]
    dsimp only
    rw [cmRegisterLoop_spec]
    dsimp only
    repeat' split
    all_goals
      simp only [CMState.add_log, CMState.add_error, cmLinkPhase_regGet_unlinked,
        List.nil_append]

/-! ### Result-level lemmas for `gsLoad` -/

/-- The errors accumulated at the entry of `gsFinish`, including the
possible no-player error it records itself. -/
def preErr (s : GSState) : List String :=
  s.loading_errors ++
    (if s.player_character_id.isNone && !s.characters.isEmpty then [gsNoPlayerMsg] else [])

theorem gsFinish_flag (s : GSState) (n : Nat) :
    (gsFinish (s, n)).2 = (preErr s).isEmpty := by
  unfold gsFinish preErr
  dsimp only
  by_cases hc : (s.player_character_id.isNone && !s.characters.isEmpty) = true
  · rw [if_pos hc, if_pos hc]
    have hno : (s.add_both gsNoPlayerMsg).loading_errors.isEmpty = false := by
      simp [GSState.add_both, GSState.add_log]
    rw [if_neg (by simp [hno])]
    dsimp only
    simp [GSState.add_both, GSState.add_log]
  · rw [if_neg hc, if_neg hc]
    simp only [List.append_nil]
    by_cases he : s.loading_errors.isEmpty = true
    · rw [if_pos he]
      exact he.symm
    · rw [if_neg he]
      simp only [Bool.not_eq_true] at he
      exact he.symm

theorem gsFinish_player (s : GSState) (n : Nat) :
    (gsFinish (s, n)).1.player_character_id = s.player_character_id := by
  unfold gsFinish
  dsimp only
  split <;> split <;>
    simp [GSState.add_both, GSState.add_log, gsLinkPhase_player]

theorem gsFinish_keys (s : GSState) (n : Nat) :
    (gsFinish (s, n)).1.characters.map Prod.fst = s.characters.map Prod.fst := by
  unfold gsFinish
  dsimp only
  split <;> split <;>
    simp [GSState.add_both, GSState.add_log, gsLinkPhase_keys]

theorem gsFinish_errors (s : GSState) (n : Nat) :
    ∃ t, (gsFinish (s, n)).1.loading_errors = preErr s ++ t ∧
      ∀ m ∈ t, msgTag m = "Linking ".data := by
  unfold gsFinish preErr
  dsimp only
  by_cases hc : (s.player_character_id.isNone && !s.characters.isEmpty) = true
  · rw [if_pos hc, if_pos hc]
    have hno : (s.add_both gsNoPlayerMsg).loading_errors.isEmpty = false := by
      simp [GSState.add_both, GSState.add_log]
    rw [if_neg (by simp [hno])]
    exact ⟨[], by simp [GSState.add_both, GSState.add_log], by simp⟩
  · rw [if_neg hc, if_neg hc]
    simp only [List.append_nil]
    by_cases he : s.loading_errors.isEmpty = true
    · rw [if_pos he]
      obtain ⟨t, ht, htag⟩ := gsLinkPhase_errors_tagged (s.add_log (gsSuccessMsg n))
      refine ⟨t, ?_, htag⟩
      dsimp only
      rw [ht]
      simp [GSState.add_log]
    · rw [if_neg he]
      exact ⟨[], by simp [GSState.add_log], by simp⟩

theorem gsFinish_chars_of_errs (s : GSState) (n : Nat)
    (hne : (preErr s).isEmpty = false) :
    (gsFinish (s, n)).1.characters = s.characters := by
  unfold gsFinish
  unfold preErr at hne
  dsimp only
  by_cases hc : (s.player_character_id.isNone && !s.characters.isEmpty) = true
  · rw [if_pos hc]
    have hno : (s.add_both gsNoPlayerMsg).loading_errors.isEmpty = false := by
      simp [GSState.add_both, GSState.add_log]
    rw [if_neg (by simp [hno])]
    simp [GSState.add_both, GSState.add_log]
  · rw [if_neg hc] at hne ⊢
    simp only [List.append_nil] at hne
    rw [if_neg (by simp [hne])]
    rfl

theorem gsFinish_regGet_of_errs (s : GSState) (n : Nat) (k : String)
    (hne : (preErr s).isEmpty = false) :
    regGet (gsFinish (s, n)).1.characters k = regGet s.characters k := by
  rw [gsFinish_chars_of_errs s n hne]

theorem gsFinish_linked_iff (s : GSState) (n : Nat)
    (hlog : ∀ m ∈ s.log_messages, msgTag m ≠ "Linking ".data) :
    (gsFinish (s, n)).2 = true ↔
      gsLinkStartMsg ∈ (gsFinish (s, n)).1.log_messages := by
  have htagL : msgTag gsLinkStartMsg = "Linking ".data := by decide
  unfold gsFinish
  dsimp only
  split
  · rename_i hc
    split
    · constructor
      · intro _
        obtain ⟨t, ht⟩ := gsLinkPhase_log_ext _
        rw [ht]
        simp
      · intro _
        rfl
    · rename_i hne
      simp only [GSState.add_both, GSState.add_log]
      constructor
      · intro h; cases h
      · intro hmem
        exfalso
        simp only [List.mem_append, List.append_assoc] at hmem
        rcases hmem with hm | hm | hm
        · exact hlog _ hm htagL
        · have h7 := (List.mem_singleton.mp hm) ▸ htagL
          exact absurd h7 (by decide)
        · have h7 := (List.mem_singleton.mp hm) ▸ htagL
          rw [gsFinishedErrsMsg_tag] at h7
          exact absurd h7 (by decide)
  · rename_i hc
    split
    · constructor
      · intro _
        obtain ⟨t, ht⟩ := gsLinkPhase_log_ext _
        rw [ht]
        simp
      · intro _
        rfl
    · rename_i hne
      simp only [GSState.add_log]
      constructor
      · intro h; cases h
      · intro hmem
        exfalso
        simp only [List.mem_append] at hmem
        rcases hmem with hm | hm
        · exact hlog _ hm htagL
        · have h7 := (List.mem_singleton.mp hm) ▸ htagL
          rw [gsFinishedErrsMsg_tag] at h7
          exact absurd h7 (by decide)

/-- Unfolding of `gsLoad` when the directory is present. -/
theorem gsLoad_eq (s0 : GSState) (dp : String) (files : List RawFile) :
    gsLoad s0 dp true files =
      gsFinish (gsFileLoop
        { characters := [], player_character_id := none,
          log_messages := [gsStartMsg dp] ++
            (if files.isEmpty then [gsNoFilesMsg dp] else []),
          loading_errors := [], initial_load_complete := false }
        0 files) := by
  unfold gsLoad
  cases hemp : files.isEmpty with
  | true => simp only [hemp]; rfl
  | false => simp only [hemp]; rfl

/-- The error list accumulated by a GameState run before the linking
phase: per-file errors plus the possible no-player error. -/
def gsPreErrors (files : List RawFile) : List String :=
  gsLoopMsgs none [] files ++
    (if (playerAfter none [] (okChars files)).isNone &&
        !(newEntries [] (okChars files)).isEmpty
     then [gsNoPlayerMsg] else [])

/-- The state entering `gsFinish` on a `gsLoad` run. -/
theorem gsLoad_loopState (s0 : GSState) (dp : String) (files : List RawFile) :
    gsLoad s0 dp true files =
      gsFinish
        ({ characters := (newEntries [] (okChars files)).map fun c => (c.id, c),
           player_character_id := playerAfter none [] (okChars files),
           log_messages := ([gsStartMsg dp] ++
               (if files.isEmpty then [gsNoFilesMsg dp] else [])) ++
             gsLoopLogs none [] files,
           loading_errors := gsLoopMsgs none [] files,
           initial_load_complete := false },
         0 + (newEntries [] (okChars files)).length) := by
  rw [gsLoad_eq, gsFileLoop_spec]
  simp only [List.map_nil, List.nil_append]

theorem gsLoad_preErr (dp : String) (files : List RawFile) :
    preErr
        { characters := (newEntries [] (okChars files)).map fun c => (c.id, c),
          player_character_id := playerAfter none [] (okChars files),
          log_messages := ([gsStartMsg dp] ++
              (if files.isEmpty then [gsNoFilesMsg dp] else [])) ++
            gsLoopLogs none [] files,
          loading_errors := gsLoopMsgs none [] files,
          initial_load_complete := false } = gsPreErrors files := by
  unfold preErr gsPreErrors
  simp only [mapPair_isEmpty]

theorem gsLoad_keys (s0 : GSState) (dp : String) (files : List RawFile) :
    (gsLoad s0 dp true files).1.characters.map Prod.fst =
      (newEntries [] (okChars files)).map Character.id := by
  rw [gsLoad_loopState s0, gsFinish_keys]
  simp only [List.map_map]
  rfl

theorem gsLoad_player (s0 : GSState) (dp : String) (files : List RawFile) :
    (gsLoad s0 dp true files).1.player_character_id =
      playerAfter none [] (okChars files) := by
  rw [gsLoad_loopState s0, gsFinish_player]

theorem gsLoad_flag (s0 : GSState) (dp : String) (files : List RawFile) :
    (gsLoad s0 dp true files).2 = (gsPreErrors files).isEmpty := by
  rw [gsLoad_loopState s0, gsFinish_flag, gsLoad_preErr dp files]

theorem gsLoad_errors (s0 : GSState) (dp : String) (files : List RawFile) :
    ∃ t, (gsLoad s0 dp true files).1.loading_errors = gsPreErrors files ++ t ∧
      ∀ m ∈ t, msgTag m = "Linking ".data := by
  rw [gsLoad_loopState s0]
  obtain ⟨t, ht, htag⟩ := gsFinish_errors _ _
  exact ⟨t, by rw [ht, gsLoad_preErr dp files], htag⟩

theorem gsLoad_regGet_of_errs (s0 : GSState) (dp : String) (files : List RawFile)
    (k : String) (hne : (gsPreErrors files).isEmpty = false) :
    regGet (gsLoad s0 dp true files).1.characters k =
      regGet ((newEntries [] (okChars files)).map fun c => (c.id, c)) k := by
  rw [gsLoad_loopState s0, gsFinish_regGet_of_errs]
  rw [gsLoad_preErr dp files]
  exact hne

theorem gsLoad_flag_iff_linked (s0 : GSState) (dp : String) (files : List RawFile) :
    (gsLoad s0 dp true files).2 = true ↔
      gsLinkStartMsg ∈ (gsLoad s0 dp true files).1.log_messages := by
  rw [gsLoad_loopState s0]
  apply gsFinish_linked_iff
  intro m hm htag
  dsimp only at hm
  simp only [List.mem_append] at hm
  rcases hm with (hm | hm) | hm
  · rcases List.mem_singleton.mp hm with rfl
    rw [gsStartMsg_tag] at htag
    exact absurd htag (by decide)
  · split at hm
    · rcases List.mem_singleton.mp hm with rfl
      rw [gsNoFilesMsg_tag] at htag
      exact absurd htag (by decide)
    · cases hm
  · rcases gsLoopLogs_tag files _ _ _ hm with ht | ht | ht | ht <;>
      (rw [ht] at htag; exact absurd htag (by decide))

/-! ### No-player iff lemmas (C6) and parse-failure membership (C5) -/

theorem cmLoad_chars_nil_iff (s0 : CMState) (dp : String) (files : List RawFile) :
    (cmLoad s0 dp true files).1.characters = [] ↔
      newEntries [] (okChars files) = [] := by
  have hkeys := cmLoad_keys s0 dp files
  constructor
  · intro h
    rw [h] at hkeys
    exact List.map_eq_nil_iff.mp hkeys.symm
  · intro h
    rw [h] at hkeys
    simp only [List.map_nil] at hkeys
    exact List.map_eq_nil_iff.mp hkeys

theorem cmLoad_noPlayer_iff (s0 : CMState) (dp : String) (files : List RawFile) :
    cmNoPlayerMsg ∈ (cmLoad s0 dp true files).1.loading_errors ↔
      ((cmLoad s0 dp true files).1.characters ≠ [] ∧
        (cmLoad s0 dp true files).1.player_character_id = none) := by
  rw [cmLoad_errors, cmLoad_player]
  rw [ne_eq, cmLoad_chars_nil_iff s0 dp files]
  constructor
  · intro hmem
    rcases List.mem_append.mp hmem with hmem | hmem
    · rcases List.mem_append.mp hmem with hmem | hmem
      · exact absurd (cmParseMsgs_tag files _ hmem) (by decide)
      · rcases cmRegMsgs_tag _ _ _ _ hmem with ht | ht <;> exact absurd ht (by decide)
    · split at hmem
      · rename_i hcond
        rw [Bool.and_eq_true, Bool.not_eq_true', List.isEmpty_eq_false,
          Option.isNone_iff_eq_none] at hcond
        exact ⟨hcond.1, hcond.2⟩
      · cases hmem
  · rintro ⟨hne, hpl⟩
    have hcond : (!(newEntries [] (okChars files)).isEmpty &&
        (playerAfter none [] (okChars files)).isNone) = true := by
      rw [Bool.and_eq_true, Bool.not_eq_true', List.isEmpty_eq_false,
        Option.isNone_iff_eq_none]
      exact ⟨hne, hpl⟩
    refine List.mem_append.mpr (Or.inr ?_)
    rw [if_pos hcond]
    exact List.mem_singleton.mpr rfl

theorem gsLoad_chars_nil_iff (s0 : GSState) (dp : String) (files : List RawFile) :
    (gsLoad s0 dp true files).1.characters = [] ↔
      newEntries [] (okChars files) = [] := by
  have hkeys := gsLoad_keys s0 dp files
  constructor
  · intro h
    rw [h] at hkeys
    exact List.map_eq_nil_iff.mp hkeys.symm
  · intro h
    rw [h] at hkeys
    simp only [List.map_nil] at hkeys
    exact List.map_eq_nil_iff.mp hkeys

theorem gsLoad_noPlayer_iff (s0 : GSState) (dp : String) (files : List RawFile) :
    gsNoPlayerMsg ∈ (gsLoad s0 dp true files).1.loading_errors ↔
      ((gsLoad s0 dp true files).1.characters ≠ [] ∧
        (gsLoad s0 dp true files).1.player_character_id = none) := by
  obtain ⟨t, ht, htag⟩ := gsLoad_errors s0 dp files
  rw [ht, gsLoad_player, ne_eq, gsLoad_chars_nil_iff s0 dp files]
  unfold gsPreErrors
  constructor
  · intro hmem
    rcases List.mem_append.mp hmem with hmem | hmem
    · rcases List.mem_append.mp hmem with hmem | hmem
      · rcases gsLoopMsgs_tag files _ _ _ hmem with h' | h' | h' <;>
          exact absurd h' (by decide)
      · split at hmem
        · rename_i hcond
          rw [Bool.and_eq_true, Bool.not_eq_true', List.isEmpty_eq_false,
            Option.isNone_iff_eq_none] at hcond
          exact ⟨hcond.2, hcond.1⟩
        · cases hmem
    · exact absurd (htag _ hmem) (by decide)
  · rintro ⟨hne, hpl⟩
    have hcond : ((playerAfter none [] (okChars files)).isNone &&
        !(newEntries [] (okChars files)).isEmpty) = true := by
      rw [Bool.and_eq_true, Bool.not_eq_true', List.isEmpty_eq_false,
        Option.isNone_iff_eq_none]
      exact ⟨hpl, hne⟩
    refine List.mem_append.mpr (Or.inl (List.mem_append.mpr (Or.inr ?_)))
    rw [if_pos hcond]
    exact List.mem_singleton.mpr rfl

theorem okChars_cons_error (f : RawFile) (files : List RawFile) (e : String)
    (h : Character.load_from_yaml_file f.path f.data = Except.error e) :
    okChars (f :: files) = okChars files := by
  simp [okChars, List.filterMap_cons, h, Except.toOption]

theorem okChars_append (files1 files2 : List RawFile) :
    okChars (files1 ++ files2) = okChars files1 ++ okChars files2 :=
  List.filterMap_append files1 files2 _

theorem cmParseMsgs_mem (files : List RawFile) (f : RawFile) (e : String)
    (hf : f ∈ files) (he : Character.load_from_yaml_file f.path f.data = Except.error e) :
    cmLoadFailMsg f.path e ∈ cmParseMsgs files := by
  induction files with
  | nil => cases hf
  | cons g rest ih =>
    rcases List.mem_cons.mp hf with rfl | hf
    · rw [cmParseMsgs]
      simp only [he]
      exact List.mem_cons_self _ _
    · rw [cmParseMsgs]
      cases hl : Character.load_from_yaml_file g.path g.data with
      | ok c => exact ih hf
      | error e' => exact List.mem_cons_of_mem _ (ih hf)

theorem gsLoopMsgs_mem_fail (files : List RawFile) (p : Option String)
    (pids : List String) (f : RawFile) (e : String) (hf : f ∈ files)
    (he : Character.load_from_yaml_file f.path f.data = Except.error e) :
    gsLoadFailMsg f.path e ∈ gsLoopMsgs p pids files := by
  induction files generalizing p pids with
  | nil => cases hf
  | cons g rest ih =>
    rcases List.mem_cons.mp hf with rfl | hf
    · rw [gsLoopMsgs]
      simp only [he]
      exact List.mem_cons_self _ _
    · rw [gsLoopMsgs]
      cases hl : Character.load_from_yaml_file g.path g.data with
      | error e' => exact List.mem_cons_of_mem _ (ih _ _ hf)
      | ok c =>
        dsimp only
        by_cases hin : c.id ∈ pids
        · rw [if_pos hin]
          exact List.mem_cons_of_mem _ (ih _ _ hf)
        · rw [if_neg hin]
          by_cases hp : c.is_player
          · rw [if_pos hp]
            exact List.mem_append.mpr (Or.inr (ih _ _ hf))
          · rw [if_neg hp]
            exact ih _ _ hf

/-! ### C9: the error list is mirrored in the log -/

theorem errLogged_ite_error (b : Bool) (s : CMState) (m : String) (h : errLogged s) :
    errLogged (if b then s.add_error m else s) := by
  cases b
  · simpa using h
  · simpa using errLogged_add_error s m h

theorem errLogged_cmLoad (s0 : CMState) (dp : String) (dirOk : Bool)
    (files : List RawFile) : errLogged (cmLoad s0 dp dirOk files).1 := by
  have h0 : errLogged (⟨[], none, [], []⟩ : CMState) := by
    simp [errLogged]
  cases dirOk with
  | false =>
    exact errLogged_add_error _ _ (errLogged_add_log _ _ h0)
  | true =>
    cases hemp : files.isEmpty with
    | true =>
      rw [List.isEmpty_iff] at hemp
      subst hemp
      exact errLogged_add_log _ _ (errLogged_add_log _ _ h0)
    | false =>
      rw [cmLoad_eq_main s0 dp files hemp]
      dsimp only
      repeat' split
      all_goals
        (apply errLogged_add_log
         apply errLogged_linkPhase
         try apply errLogged_add_error
         apply errLogged_add_log
         apply errLogged_registerLoop
         apply errLogged_parseLoop
         simp [errLogged])

theorem cmResolveList_warn_mem (reg : List (String × Character))
    (mkWarn : String → String) (l : List String) (i : String) (hi : i ∈ l)
    (hn : regGet reg i = none) : mkWarn i ∈ (cmResolveList reg mkWarn l).2 := by
  induction l with
  | nil => cases hi
  | cons j rest ih =>
    rcases List.mem_cons.mp hi with rfl | hi
    · rw [cmResolveList]
      simp only [hn]
      exact List.mem_cons_self _ _
    · rw [cmResolveList]
      cases hj : regGet reg j with
      | some ch => exact ih hi
      | none => exact List.mem_cons_of_mem _ (ih hi)

theorem count_eq_zero_of_tag (t : List String) (x : String)
    (ht : ∀ m ∈ t, msgTag m = "Linking ".data) (hx : msgTag x ≠ "Linking ".data) :
    t.count x = 0 :=
  List.count_eq_zero.mpr fun hmem => hx (ht x hmem)

/-! ### Concrete fixtures used by witnesses and counterexamples -/

/-- Empty prior CharacterManager state. -/
def cmS0 : CMState := ⟨[], none, [], []⟩

/-- Empty prior GameState. -/
def gsS0 : GSState := ⟨[], none, [], [], false⟩

/-- A fully valid raw record with id `i`, player flag `pl` and raw
relationships `rel`. -/
def sampleData (i : String) (pl : Bool) (rel : Option RelationshipsData) : RawData :=
  ⟨some i, some ("Jane " ++ i), some 30, some "F", some "bio", some pl, rel,
    none, none, none⟩

def fileA : RawFile := ⟨"a.yaml", sampleData "X" true none⟩

def fileB : RawFile := ⟨"b.yaml", sampleData "X" false none⟩

def fileGhost : RawFile := ⟨"g.yaml", sampleData "A" true (some ⟨some "GHOST", [], [], []⟩)⟩

/-- A record missing every required field after `id`. -/
def fileBad : RawFile :=
  ⟨"bad.yaml", ⟨some "B", none, none, none, none, none, none, none, none, none⟩⟩

/-- The character constructed from `fileA`. -/
def charX1 : Character :=
  ⟨"X", "Jane X", 30, "F", "bio", true, RelationshipsData.empty, [], [], [],
    none, [], [], []⟩

/-- The character constructed from `fileB`. -/
def charX2 : Character :=
  ⟨"X", "Jane X", 30, "F", "bio", false, RelationshipsData.empty, [], [], [],
    none, [], [], []⟩

def fileP1 : RawFile := ⟨"p1.yaml", sampleData "A" true none⟩

def fileP2 : RawFile := ⟨"p2.yaml", sampleData "B" false none⟩

def fileP3 : RawFile := ⟨"p3.yaml", sampleData "C" true none⟩

/-- The character constructed from `fileP1`. -/
def charA : Character :=
  ⟨"A", "Jane A", 30, "F", "bio", true, RelationshipsData.empty, [], [], [],
    none, [], [], []⟩

/-- The character constructed from `fileP3`. -/
def charC : Character :=
  ⟨"C", "Jane C", 30, "F", "bio", true, RelationshipsData.empty, [], [], [],
    none, [], [], []⟩

/-- A registry entry for witnesses: character `P` with no relationships. -/
def charP : Character :=
  ⟨"P", "Jane P", 30, "F", "bio", true, RelationshipsData.empty, [], [], [],
    none, [], [], []⟩

/-- A character whose raw lists contain found, missing and duplicate ids. -/
def charW : Character :=
  ⟨"A", "Jane A", 30, "F", "bio", true, ⟨some "GHOST", ["P", "GHOST", "P"], [], []⟩,
    [], [], [], none, [], [], []⟩

def regW : List (String × Character) := [("P", charP)]

/-! ### Claims -/

/-- C1 counterexample: a batch whose second record fails validation makes
`GameState.load_all_characters_from_files` signal overall failure
(returns `false`) and skip the relationship-resolution step (its opening
log line never appears), even though errors were merely accumulated —
refuting the claim that accumulated per-record errors never cause load
to signal failure or to skip resolution. -/
theorem C1_counterexample :
    (gsLoad gsS0 "chars" true [fileGhost, fileBad]).2 = false ∧
      gsLinkStartMsg ∉ (gsLoad gsS0 "chars" true [fileGhost, fileBad]).1.log_messages ∧
      (gsLoad gsS0 "chars" true [fileGhost, fileBad]).1.loading_errors ≠ [] := by
  refine ⟨rfl, ?_, ?_⟩ <;> decide

/-- C1 (amended): in `CharacterManager.load_and_link_characters`, every
nonempty batch (with the records source available) runs to completion,
returns `true`, and performs relationship resolution over the final
registry, regardless of accumulated errors; in
`GameState.load_all_characters_from_files`, the run returns `true`
exactly when the resolution step was performed — accumulated errors make
it return `false` and skip resolution. -/
theorem C1_theorem :
    (∀ (s0 : CMState) (dp : String) (files : List RawFile), files ≠ [] →
        (cmLoad s0 dp true files).2 = true ∧
          cmLinkStartMsg ∈ (cmLoad s0 dp true files).1.loading_log) ∧
      (∀ (s0 : GSState) (dp : String) (files : List RawFile),
        (gsLoad s0 dp true files).2 = true ↔
          gsLinkStartMsg ∈ (gsLoad s0 dp true files).1.log_messages) := by
  constructor
  · intro s0 dp files hne
    exact ⟨cmLoad_returns_true s0 dp files,
      cmLoad_linkStart s0 dp files (List.isEmpty_eq_false.mpr hne)⟩
  · intro s0 dp files
    exact gsLoad_flag_iff_linked s0 dp files

/-- C1 witness: the amended claim at a concrete one-record batch. -/
theorem C1_witness :
    (cmLoad cmS0 "chars" true [fileA]).2 = true ∧
      cmLinkStartMsg ∈ (cmLoad cmS0 "chars" true [fileA]).1.loading_log :=
  C1_theorem.1 cmS0 "chars" [fileA] (by decide)

/-- C2 counterexample: a dangling spouse reference in a GameState run is
escalated into `loading_errors` (not merely logged), refuting the claim
that such warnings are never escalated into the errors list. -/
theorem C2_counterexample :
    gsSpouseWarnErr "GHOST" "A" ∈
        (gsLoad gsS0 "chars" true [fileGhost]).1.loading_errors ∧
      (gsLoad gsS0 "chars" true [fileGhost]).2 = true := by
  exact ⟨by decide, rfl⟩

/-- C2 (amended): in the CharacterManager, an unresolvable spouse id
leaves the resolved spouse link absent and appends a warning to the log
only; unresolvable parent / child / sibling ids likewise produce log
warnings; and the linking loop never modifies the errors list.  (In
GameState the same warnings are additionally appended to the errors
list.) -/
theorem C2_theorem :
    (∀ (reg : List (String × Character)) (cid sid : String) (c : Character),
        c.get_spouse_id = some sid → sid.isEmpty = false → regGet reg sid = none →
          (cmLinkChar reg cid c).1.spouse_obj = none ∧
            cmSpouseWarnMsg cid sid ∈ (cmLinkChar reg cid c).2) ∧
      (∀ (reg : List (String × Character)) (cid : String) (c : Character) (i : String),
        i ∈ c.get_parent_ids → regGet reg i = none →
          cmParentWarnMsg cid i ∈ (cmLinkChar reg cid c).2) ∧
      (∀ (reg : List (String × Character)) (cid : String) (c : Character) (i : String),
        i ∈ c.get_children_ids → regGet reg i = none →
          cmChildWarnMsg cid i ∈ (cmLinkChar reg cid c).2) ∧
      (∀ (reg : List (String × Character)) (cid : String) (c : Character) (i : String),
        i ∈ c.get_sibling_ids → regGet reg i = none →
          cmSiblingWarnMsg cid i ∈ (cmLinkChar reg cid c).2) ∧
      (∀ (s : CMState) (keys : List String),
        (cmLinkLoop s keys).loading_errors = s.loading_errors) := by
  refine ⟨?_, ?_, ?_, ?_, fun s keys => cmLinkLoop_errors keys s⟩
  · intro reg cid sid c hs hne hmiss
    constructor
    · rw [cmLinkChar_spouse_obj, hs]
      simp [hne, hmiss]
    · rw [cmLinkChar_warns, hs]
      simp only [hne, if_false, hmiss, if_true, Bool.false_eq_true]
      exact List.mem_append.mpr (Or.inl (List.mem_append.mpr (Or.inl
        (List.mem_append.mpr (Or.inl (List.mem_singleton.mpr rfl))))))
  · intro reg cid c i hi hmiss
    rw [cmLinkChar_warns]
    have hne : c.get_parent_ids.isEmpty = false :=
      List.isEmpty_eq_false.mpr (List.ne_nil_of_mem hi)
    refine List.mem_append.mpr (Or.inl (List.mem_append.mpr (Or.inl
      (List.mem_append.mpr (Or.inr ?_)))))
    rw [hne]
    simp only [Bool.false_eq_true, if_false]
    exact cmResolveList_warn_mem reg _ _ i hi hmiss
  · intro reg cid c i hi hmiss
    rw [cmLinkChar_warns]
    have hne : c.get_children_ids.isEmpty = false :=
      List.isEmpty_eq_false.mpr (List.ne_nil_of_mem hi)
    refine List.mem_append.mpr (Or.inl (List.mem_append.mpr (Or.inr ?_)))
    rw [hne]
    simp only [Bool.false_eq_true, if_false]
    exact cmResolveList_warn_mem reg _ _ i hi hmiss
  · intro reg cid c i hi hmiss
    rw [cmLinkChar_warns]
    have hne : c.get_sibling_ids.isEmpty = false :=
      List.isEmpty_eq_false.mpr (List.ne_nil_of_mem hi)
    refine List.mem_append.mpr (Or.inr ?_)
    rw [hne]
    simp only [Bool.false_eq_true, if_false]
    exact cmResolveList_warn_mem reg _ _ i hi hmiss

/-- C2 witness: the amended claim at a concrete character with a
dangling spouse reference and an empty registry. -/
theorem C2_witness :
    (cmLinkChar [] "A" charW).1.spouse_obj = none ∧
      cmSpouseWarnMsg "A" "GHOST" ∈ (cmLinkChar [] "A" charW).2 :=
  C2_theorem.1 [] "A" "GHOST" charW rfl rfl rfl

/-- C3 counterexample: on a two-record batch with duplicate id `X` (the
second record coming from `b.yaml`), the CharacterManager's single
duplicate-id error names only the id — the second record's source
identifier `b.yaml` does not occur in it (nor anywhere in the errors
list), refuting the claim that the duplicate entry names the second
record's source. -/
theorem C3_counterexample :
    (cmLoad cmS0 "chars" true [fileA, fileB]).1.loading_errors = [cmDupMsg "X"] ∧
      containsSub (cmDupMsg "X") "b.yaml" = false := by
  exact ⟨by decide, by decide⟩

/-- C3 (amended): for a batch of two records with the same id, the
registry keeps exactly the first record's data under that id, the later
record is dropped, and the errors list contains exactly one duplicate-id
entry; the GameState entry names the second record's source file, while
the CharacterManager entry names only the duplicated id. -/
theorem C3_theorem :
    (∀ (s0 : CMState) (dp : String) (f1 f2 : RawFile) (c1 c2 : Character),
        Character.load_from_yaml_file f1.path f1.data = Except.ok c1 →
        Character.load_from_yaml_file f2.path f2.data = Except.ok c2 →
        c2.id = c1.id →
          (cmLoad s0 dp true [f1, f2]).1.characters.map Prod.fst = [c1.id] ∧
            (regGet (cmLoad s0 dp true [f1, f2]).1.characters c1.id).map
              Character.unlinked = some c1.unlinked ∧
            (cmLoad s0 dp true [f1, f2]).1.loading_errors.count (cmDupMsg c1.id) = 1) ∧
      (∀ (s0 : GSState) (dp : String) (f1 f2 : RawFile) (c1 c2 : Character),
        Character.load_from_yaml_file f1.path f1.data = Except.ok c1 →
        Character.load_from_yaml_file f2.path f2.data = Except.ok c2 →
        c2.id = c1.id →
          (gsLoad s0 dp true [f1, f2]).1.characters.map Prod.fst = [c1.id] ∧
            regGet (gsLoad s0 dp true [f1, f2]).1.characters c1.id = some c1 ∧
            (gsLoad s0 dp true [f1, f2]).1.loading_errors.count
              (gsDupMsg c1.id f2.path) = 1) := by
  constructor
  · intro s0 dp f1 f2 c1 c2 h1 h2 hid
    have hok : okChars [f1, f2] = [c1, c2] := by
      simp [okChars, List.filterMap_cons, h1, h2, Except.toOption]
    have hne : newEntries [] [c1, c2] = [c1] := by
      simp [newEntries, hid]
    have hpl : playerAfter none [] [c1, c2] =
        if c1.is_player then some c1.id else none := by
      by_cases hp : c1.is_player <;> simp [playerAfter, hid, hp]
    have hreg : cmRegMsgs none [] [c1, c2] = [cmDupMsg c1.id] := by
      by_cases hp : c1.is_player <;> simp [cmRegMsgs, cmMultiNote, hid, hp]
    have hparse : cmParseMsgs [f1, f2] = [] := by
      simp [cmParseMsgs, h1, h2]
    have hdupne : (cmNoPlayerMsg == cmDupMsg c1.id) = false := by
      rw [beq_eq_false_iff_ne]
      intro h
      have ht := cmDupMsg_tag c1.id
      rw [← h] at ht
      exact absurd ht (by decide)
    refine ⟨?_, ?_, ?_⟩
    · rw [cmLoad_keys, hok, hne]
      rfl
    · rw [cmLoad_regGet_unlinked, hok, hne]
      simp [regGet]
    · rw [cmLoad_errors, hok, hparse, hne, hreg, hpl]
      by_cases hp : c1.is_player
      · simp [hp, List.count_cons]
      · simp [hp, List.count_cons, List.count_nil, hdupne]
  · intro s0 dp f1 f2 c1 c2 h1 h2 hid
    have hok : okChars [f1, f2] = [c1, c2] := by
      simp [okChars, List.filterMap_cons, h1, h2, Except.toOption]
    have hne : newEntries [] [c1, c2] = [c1] := by
      simp [newEntries, hid]
    have hpl : playerAfter none [] [c1, c2] =
        if c1.is_player then some c1.id else none := by
      by_cases hp : c1.is_player <;> simp [playerAfter, hid, hp]
    have hgloop : gsLoopMsgs none [] [f1, f2] = [gsDupMsg c1.id f2.path] := by
      by_cases hp : c1.is_player <;>
        (rw [gsLoopMsgs]
         simp [h1, h2, gsLoopMsgs, gsMultiNote, hid, hp])
    have hprene : (gsPreErrors [f1, f2]).isEmpty = false := by
      unfold gsPreErrors
      rw [hgloop]
      simp
    have hdupne : (gsNoPlayerMsg == gsDupMsg c1.id f2.path) = false := by
      rw [beq_eq_false_iff_ne]
      intro h
      have ht := gsDupMsg_tag c1.id f2.path
      rw [← h] at ht
      exact absurd ht (by decide)
    refine ⟨?_, ?_, ?_⟩
    · rw [gsLoad_keys, hok, hne]
      rfl
    · rw [gsLoad_regGet_of_errs s0 dp [f1, f2] c1.id hprene, hok, hne]
      simp [regGet]
    · obtain ⟨t, ht, htag⟩ := gsLoad_errors s0 dp [f1, f2]
      rw [ht, List.count_append]
      rw [count_eq_zero_of_tag t _ htag (by rw [gsDupMsg_tag]; decide)]
      unfold gsPreErrors
      rw [hgloop, hok, hne, hpl, List.count_append]
      by_cases hp : c1.is_player
      · simp [hp, List.count_cons]
      · simp [hp, List.count_cons, List.count_nil, hdupne]

/-- C3 witness: the amended claim at the concrete duplicate batch. -/
theorem C3_witness :
    (cmLoad cmS0 "chars" true [fileA, fileB]).1.characters.map Prod.fst = ["X"] ∧
      (regGet (cmLoad cmS0 "chars" true [fileA, fileB]).1.characters "X").map
        Character.unlinked = some charX1.unlinked ∧
      (cmLoad cmS0 "chars" true [fileA, fileB]).1.loading_errors.count
        (cmDupMsg "X") = 1 :=
  C3_theorem.1 cmS0 "chars" fileA fileB charX1 charX2 rfl rfl rfl

/-- C4: among the non-duplicate records, the last one with the player
flag wins: if the player-flagged entries of the registry sequence are
`l1 ++ [a, b] ++ l2`, the final player id is the id of the last of them,
and for each overwrite the errors list holds a multiple-players entry
naming the old id then the new id (here shown for the adjacent pair
`a, b`); records skipped as duplicates are excluded throughout.  Holds
for both CharacterManager and GameState. -/
theorem C4_theorem :
    (∀ (s0 : CMState) (dp : String) (files : List RawFile) (l1 : List Character)
        (a b : Character) (l2 : List Character),
        (newEntries [] (okChars files)).filter (fun c => c.is_player) =
            l1 ++ a :: b :: l2 →
          (cmLoad s0 dp true files).1.player_character_id =
              ((l1 ++ a :: b :: l2).getLast?.map Character.id) ∧
            cmMultiMsg a.id b.id ∈ (cmLoad s0 dp true files).1.loading_errors) ∧
      (∀ (s0 : GSState) (dp : String) (files : List RawFile) (l1 : List Character)
        (a b : Character) (l2 : List Character),
        (newEntries [] (okChars files)).filter (fun c => c.is_player) =
            l1 ++ a :: b :: l2 →
          (gsLoad s0 dp true files).1.player_character_id =
              ((l1 ++ a :: b :: l2).getLast?.map Character.id) ∧
            gsMultiMsg a.id b.id ∈ (gsLoad s0 dp true files).1.loading_errors) := by
  constructor
  · intro s0 dp files l1 a b l2 h
    constructor
    · rw [cmLoad_player, playerAfter_getLast, h]
      exact Option.or_none
    · rw [cmLoad_errors]
      exact List.mem_append.mpr (Or.inl (List.mem_append.mpr (Or.inr
        (cmRegMsgs_adjacent (okChars files) [] none l1 a b l2 h))))
  · intro s0 dp files l1 a b l2 h
    constructor
    · rw [gsLoad_player, playerAfter_getLast, h]
      exact Option.or_none
    · obtain ⟨t, ht, htag⟩ := gsLoad_errors s0 dp files
      rw [ht]
      refine List.mem_append.mpr (Or.inl ?_)
      unfold gsPreErrors
      exact List.mem_append.mpr (Or.inl
        (gsLoopMsgs_adjacent files [] none l1 a b l2 h))

/-- C4 witness: three records where the first and third set the player
flag, with ids `A` and `C`: the final player id is `C` and the errors
list holds the multiple-players entry naming `A` then `C`. -/
theorem C4_witness :
    (cmLoad cmS0 "chars" true [fileP1, fileP2, fileP3]).1.player_character_id =
        (([] ++ charA :: charC :: []).getLast?.map Character.id) ∧
      cmMultiMsg charA.id charC.id ∈
        (cmLoad cmS0 "chars" true [fileP1, fileP2, fileP3]).1.loading_errors :=
  C4_theorem.1 cmS0 "chars" [fileP1, fileP2, fileP3] [] charA charC [] (by decide)

/-- C5: constructing an entity from a record missing a required field
fails with a validation error naming the first missing field in the
order `id, name, age, gender, bio` (and succeeds when none is missing);
in both managers the failed record's classified error — naming its
source — is appended while the rest of the batch continues to be
processed (the constructed batch is exactly the other records'). -/
theorem C5_theorem :
    (∀ (path : String) (d : RawData) (fieldName : String),
        firstMissing d = some fieldName →
          Character.load_from_yaml_file path d =
            Except.error (missingFieldMsg fieldName path)) ∧
      (∀ (path : String) (d : RawData), firstMissing d = none →
        ∃ c, Character.load_from_yaml_file path d = Except.ok c) ∧
      (∀ (pre post : List RawFile) (f : RawFile) (e : String),
        Character.load_from_yaml_file f.path f.data = Except.error e →
          okChars (pre ++ f :: post) = okChars pre ++ okChars post) ∧
      (∀ (s0 : CMState) (dp : String) (files : List RawFile) (f : RawFile) (e : String),
        f ∈ files → Character.load_from_yaml_file f.path f.data = Except.error e →
          cmLoadFailMsg f.path e ∈ (cmLoad s0 dp true files).1.loading_errors) ∧
      (∀ (s0 : GSState) (dp : String) (files : List RawFile) (f : RawFile) (e : String),
        f ∈ files → Character.load_from_yaml_file f.path f.data = Except.error e →
          gsLoadFailMsg f.path e ∈ (gsLoad s0 dp true files).1.loading_errors) := by
  refine ⟨?_, ?_, ?_, ?_, ?_⟩
  · intro path d fn h
    unfold firstMissing at h
    unfold Character.load_from_yaml_file
    cases hid : d.id <;> cases hnm : d.name <;> cases hag : d.age <;>
      cases hgd : d.gender <;> cases hb : d.bio <;> simp_all
  · intro path d h
    unfold firstMissing at h
    unfold Character.load_from_yaml_file
    cases hid : d.id <;> cases hnm : d.name <;> cases hag : d.age <;>
      cases hgd : d.gender <;> cases hb : d.bio <;> simp_all
  · intro pre post f e he
    rw [okChars_append, okChars_cons_error f post e he]
  · intro s0 dp files f e hf he
    rw [cmLoad_errors]
    exact List.mem_append.mpr (Or.inl (List.mem_append.mpr (Or.inl
      (cmParseMsgs_mem files f e hf he))))
  · intro s0 dp files f e hf he
    obtain ⟨t, ht, htag⟩ := gsLoad_errors s0 dp files
    rw [ht]
    refine List.mem_append.mpr (Or.inl ?_)
    unfold gsPreErrors
    exact List.mem_append.mpr (Or.inl (gsLoopMsgs_mem_fail files none [] f e hf he))

/-- C5 witness: a record holding only `id` fails naming `name`, the
first missing field in order. -/
theorem C5_witness :
    Character.load_from_yaml_file "bad.yaml" fileBad.data =
      Except.error (missingFieldMsg "name" "bad.yaml") :=
  C5_theorem.1 "bad.yaml" fileBad.data "name" rfl

/-- C6: in both managers, the no-player error is recorded exactly when
the final registry is non-empty and no player id was set; in that case
the player id is absent, and an empty registry with no player yields no
such error. -/
theorem C6_theorem :
    (∀ (s0 : CMState) (dp : String) (files : List RawFile),
        cmNoPlayerMsg ∈ (cmLoad s0 dp true files).1.loading_errors ↔
          ((cmLoad s0 dp true files).1.characters ≠ [] ∧
            (cmLoad s0 dp true files).1.player_character_id = none)) ∧
      (∀ (s0 : GSState) (dp : String) (files : List RawFile),
        gsNoPlayerMsg ∈ (gsLoad s0 dp true files).1.loading_errors ↔
          ((gsLoad s0 dp true files).1.characters ≠ [] ∧
            (gsLoad s0 dp true files).1.player_character_id = none)) :=
  ⟨fun s0 dp files => cmLoad_noPlayer_iff s0 dp files,
    fun s0 dp files => gsLoad_noPlayer_iff s0 dp files⟩

/-- C7: relationship resolution fills each resolved sequence with
exactly the raw ids found in the registry, in source order and without
deduplicating: over a well-keyed registry the resolved parents, children
and siblings are the found-filter of the raw lists (for both managers);
the found-filter keeps duplicates (counts of found ids are preserved),
drops missing ids, and is duplicate-free whenever the source list is. -/
theorem C7_theorem :
    (∀ (reg : List (String × Character)) (cid : String) (c : Character),
        WellKeyed reg →
          ((cmLinkChar reg cid c).1.parent_objs =
              if c.get_parent_ids.isEmpty then c.parent_objs
              else foundFilter reg c.get_parent_ids) ∧
            ((cmLinkChar reg cid c).1.children_objs =
              if c.get_children_ids.isEmpty then c.children_objs
              else foundFilter reg c.get_children_ids) ∧
            ((cmLinkChar reg cid c).1.sibling_objs =
              if c.get_sibling_ids.isEmpty then c.sibling_objs
              else foundFilter reg c.get_sibling_ids)) ∧
      (∀ (reg : List (String × Character)) (cid : String) (c : Character),
        WellKeyed reg →
          ((gsLinkChar reg cid c).1.parent_objs =
              if c.get_parent_ids.isEmpty then c.parent_objs
              else foundFilter reg c.get_parent_ids) ∧
            ((gsLinkChar reg cid c).1.children_objs =
              if c.get_children_ids.isEmpty then c.children_objs
              else foundFilter reg c.get_children_ids) ∧
            ((gsLinkChar reg cid c).1.sibling_objs =
              if c.get_sibling_ids.isEmpty then c.sibling_objs
              else foundFilter reg c.get_sibling_ids)) ∧
      (∀ (reg : List (String × Character)) (l : List String),
        l.Nodup → (foundFilter reg l).Nodup) ∧
      (∀ (reg : List (String × Character)) (l : List String) (i : String),
        (regGet reg i).isSome = true → (foundFilter reg l).count i = l.count i) ∧
      (∀ (reg : List (String × Character)) (l : List String) (i : String),
        (regGet reg i).isSome = false → (foundFilter reg l).count i = 0) := by
  refine ⟨?_, ?_, ?_, ?_, ?_⟩
  · intro reg cid c wk
    refine ⟨?_, ?_, ?_⟩
    · rw [cmLinkChar_parent_objs, cmResolveList_spec reg _ wk]
    · rw [cmLinkChar_children_objs, cmResolveList_spec reg _ wk]
    · rw [cmLinkChar_sibling_objs, cmResolveList_spec reg _ wk]
  · intro reg cid c wk
    refine ⟨?_, ?_, ?_⟩
    · rw [gsLinkChar_parent_objs, gsResolveList_spec reg _ _ wk]
    · rw [gsLinkChar_children_objs, gsResolveList_spec reg _ _ wk]
    · rw [gsLinkChar_sibling_objs, gsResolveList_spec reg _ _ wk]
  · intro reg l h
    exact List.Nodup.filter _ h
  · intro reg l i h
    exact List.count_filter h
  · intro reg l i h
    refine List.count_eq_zero.mpr fun hmem => ?_
    have := (List.mem_filter.mp hmem).2
    rw [h] at this
    cases this

/-- C7 witness: a character with raw parent list `[P, GHOST, P]` over
the registry `[P]`: the resolved parents are `[P, P]` — duplicates kept,
the missing id skipped. -/
theorem C7_witness :
    ((cmLinkChar regW "A" charW).1.parent_objs =
        if charW.get_parent_ids.isEmpty then charW.parent_objs
        else foundFilter regW charW.get_parent_ids) ∧
      ((cmLinkChar regW "A" charW).1.children_objs =
        if charW.get_children_ids.isEmpty then charW.children_objs
        else foundFilter regW charW.get_children_ids) ∧
      ((cmLinkChar regW "A" charW).1.sibling_objs =
        if charW.get_sibling_ids.isEmpty then charW.sibling_objs
        else foundFilter regW charW.get_sibling_ids) :=
  C7_theorem.1 regW "A" charW (by decide)

/-- C8: a load run resets all loader state first, so its result does not
depend on any state left by a previous run — two runs from arbitrary
prior states over the same input are equal, for both managers. -/
theorem C8_theorem :
    (∀ (s0 s1 : CMState) (dp : String) (dirOk : Bool) (files : List RawFile),
        cmLoad s0 dp dirOk files = cmLoad s1 dp dirOk files) ∧
      (∀ (g0 g1 : GSState) (dp : String) (dirOk : Bool) (files : List RawFile),
        gsLoad g0 dp dirOk files = gsLoad g1 dp dirOk files) :=
  ⟨fun _ _ _ _ _ => rfl, fun _ _ _ _ _ => rfl⟩

/-- C9 counterexample: after a duplicate-id run, the duplicate error
message is in the errors list but does not itself occur in the log (the
log holds it with an `ERROR: ` prefix), refuting the claim that the
errors list is literally an ordered subset of the log. -/
theorem C9_counterexample :
    cmDupMsg "X" ∈ (cmLoad cmS0 "chars" true [fileA, fileB]).1.loading_errors ∧
      cmDupMsg "X" ∉ (cmLoad cmS0 "chars" true [fileA, fileB]).1.loading_log := by
  exact ⟨by decide, by decide⟩

/-- C9 (amended): at the end of every CharacterManager load, the errors
list prefixed entrywise with `ERROR: ` is an ordered sublist of the log:
every error is mirrored in the log, in the same chronological position,
as `ERROR: ` followed by the error text.  (GameState's linking warnings
are recorded in the log under a different text.) -/
theorem C9_theorem :
    ∀ (s0 : CMState) (dp : String) (dirOk : Bool) (files : List RawFile),
      (((cmLoad s0 dp dirOk files).1.loading_errors).map
          fun m => "ERROR: " ++ m).Sublist
        (cmLoad s0 dp dirOk files).1.loading_log :=
  fun s0 dp dirOk files => errLogged_cmLoad s0 dp dirOk files

/-- C10: whenever a completed load reports a player id, that id is a key
of the returned registry, for both managers. -/
theorem C10_theorem :
    (∀ (s0 : CMState) (dp : String) (dirOk : Bool) (files : List RawFile) (q : String),
        (cmLoad s0 dp dirOk files).1.player_character_id = some q →
          q ∈ (cmLoad s0 dp dirOk files).1.characters.map Prod.fst) ∧
      (∀ (s0 : GSState) (dp : String) (dirOk : Bool) (files : List RawFile) (q : String),
        (gsLoad s0 dp dirOk files).1.player_character_id = some q →
          q ∈ (gsLoad s0 dp dirOk files).1.characters.map Prod.fst) := by
  constructor
  · intro s0 dp dirOk files q h
    cases dirOk with
    | false =>
      have hnone : (cmLoad s0 dp false files).1.player_character_id = none := rfl
      rw [hnone] at h
      cases h
    | true =>
      rw [cmLoad_player] at h
      rcases playerAfter_mem (okChars files) none [] q h with h' | h'
      · cases h'
      · rw [cmLoad_keys]
        exact h'
  · intro s0 dp dirOk files q h
    cases dirOk with
    | false =>
      have hnone : (gsLoad s0 dp false files).1.player_character_id = none := rfl
      rw [hnone] at h
      cases h
    | true =>
      rw [gsLoad_player] at h
      rcases playerAfter_mem (okChars files) none [] q h with h' | h'
      · cases h'
      · rw [gsLoad_keys]
        exact h'

/-- C10 witness: the one-record player batch yields player id `X`, and
`X` is a registry key. -/
theorem C10_witness :
    "X" ∈ (cmLoad cmS0 "chars" true [fileA]).1.characters.map Prod.fst :=
  C10_theorem.1 cmS0 "chars" true [fileA] "X" (by decide)

end Deserethon
